import Mathlib

/-!
Shallow embedding of the pldebugger breakpoint coordination subsystem,
translated from plugin_debugger.c, dbgcomm.c and globalbp.h, together with
theorems checking the specification claims against it.

Modelling conventions:
the PostgreSQL hash tables (HTAB) are association lists; hash_search with
HASH_FIND is alookup, HASH_ENTER is a cons for a fresh key or an in-place
update (aupdate) for an existing one, and HASH_REMOVE is aerase.  Machine
integers that can be negative (pids, ports, line numbers, counts) are Int;
object ids (Oid) are Nat.  Socket calls are modelled by lists of call
results supplied by the environment.
-/

namespace PLDebugger

/-- Lookup in an association list; models hash_search(..., HASH_FIND, ...). -/
def alookup {α β : Type} [DecidableEq α] : List (α × β) → α → Option β
  | [], _ => none
  | p :: t, k => if p.1 = k then some p.2 else alookup t k

/-- In-place update of the value stored under a key; models writing through
the entry pointer returned by hash_search for an existing key. -/
def aupdate {α β : Type} [DecidableEq α] : List (α × β) → α → β → List (α × β)
  | [], _, _ => []
  | p :: t, k, v => if p.1 = k then (k, v) :: aupdate t k v else p :: aupdate t k v

/-- Removal of a key; models hash_search(..., HASH_REMOVE, ...). -/
def aerase {α β : Type} [DecidableEq α] : List (α × β) → α → List (α × β)
  | [], _ => []
  | p :: t, k => if p.1 = k then aerase t k else p :: aerase t k

/-- eBreakpointScope from globalbp.h. -/
inductive eBreakpointScope : Type
  | BP_LOCAL
  | BP_GLOBAL
deriving DecidableEq, Repr

export eBreakpointScope (BP_LOCAL BP_GLOBAL)

/-- BreakpointKey from globalbp.h (INCLUDE_PACKAGE_SUPPORT is off, so there
is no packageId field). -/
structure BreakpointKey : Type where
  databaseId : Nat
  functionId : Nat
  lineNumber : Int
  targetPid : Int
deriving DecidableEq, Repr

/-- BreakpointData from globalbp.h. -/
structure BreakpointData : Type where
  isTmp : Bool
  busy : Bool
  proxyPort : Int
  proxyPid : Int
deriving DecidableEq, Repr

/-- BreakCountKey from plugin_debugger.c: the (databaseId, functionId)
first fields of BreakpointKey, so that the (BreakCountKey *)key casts work. -/
structure BreakCountKey : Type where
  databaseId : Nat
  functionId : Nat
deriving DecidableEq, Repr

/-- The cast ((BreakCountKey *)key) applied to a BreakpointKey. -/
def bcKeyOf (k : BreakpointKey) : BreakCountKey :=
  ⟨k.databaseId, k.functionId⟩

/-- One scope of the registry: its breakpoint hash and its breakcount hash
(that is, the pair globalBreakpoints/globalBreakCounts, or the pair
localBreakpoints/localBreakCounts). -/
structure BPTables : Type where
  bps : List (BreakpointKey × BreakpointData)
  counts : List (BreakCountKey × Int)
deriving DecidableEq, Repr

/-- Both scopes of the breakpoint registry. -/
structure RegistryState : Type where
  glob : BPTables
  loc : BPTables
deriving DecidableEq, Repr

/-- The freshly initialized registry: all four hash tables empty. -/
def emptyRegistry : RegistryState :=
  ⟨⟨[], []⟩, ⟨[], []⟩⟩

/-- getBreakpointHash / getBreakCountHash scope dispatch, as a projection of
the combined state. -/
def getTable (st : RegistryState) : eBreakpointScope → BPTables
  | BP_GLOBAL => st.glob
  | BP_LOCAL => st.loc

/-- Write back the table selected by a scope. -/
def setTable (st : RegistryState) (scope : eBreakpointScope) (t : BPTables) :
    RegistryState :=
  match scope with
  | BP_GLOBAL => { st with glob := t }
  | BP_LOCAL => { st with loc := t }

/-- Number of breakpoints in a table whose key starts with the given
(databaseId, functionId) pair. -/
def entityCnt (bps : List (BreakpointKey × BreakpointData)) (ck : BreakCountKey) :
    Nat :=
  bps.countP (fun e => decide (bcKeyOf e.1 = ck))

/-- breakCountInsert from plugin_debugger.c: HASH_ENTER on the breakcount
hash, then count++ if the entry existed, count = 1 otherwise. -/
def breakCountInsert (counts : List (BreakCountKey × Int)) (key : BreakCountKey) :
    List (BreakCountKey × Int) :=
  match alookup counts key with
  | some c => aupdate counts key (c + 1)
  | none => (key, 1) :: counts

/-- breakCountDelete from plugin_debugger.c: HASH_FIND, and when the entry is
present, count-- followed by HASH_REMOVE exactly when the count reached 0. -/
def breakCountDelete (counts : List (BreakCountKey × Int)) (key : BreakCountKey) :
    List (BreakCountKey × Int) :=
  match alookup counts key with
  | some c => if c - 1 = 0 then aerase counts key else aupdate counts key (c - 1)
  | none => counts

/-- breakCountLookup from plugin_debugger.c: returns the count (or -1) and
sets the found flag. -/
def breakCountLookup (counts : List (BreakCountKey × Int)) (key : BreakCountKey) :
    Int × Bool :=
  match alookup counts key with
  | some c => (c, true)
  | none => (-1, false)

/-- Body of BreakpointLookup for the table selected by the scope. -/
def bpTabLookup (t : BPTables) (key : BreakpointKey) : Option BreakpointData :=
  alookup t.bps key

/-- Body of BreakpointInsert for the table selected by the scope: HASH_ENTER;
if the key was already present, return FALSE without touching the entry;
otherwise store the supplied data with busy forced to FALSE and register the
insert in the breakcount hash. -/
def bpTabInsert (t : BPTables) (key : BreakpointKey) (data : BreakpointData) :
    BPTables × Bool :=
  match alookup t.bps key with
  | some _ => (t, false)
  | none =>
      (⟨(key, { data with busy := false }) :: t.bps,
        breakCountInsert t.counts (bcKeyOf key)⟩, true)

/-- Body of BreakpointInsertOrUpdate: like bpTabInsert, except that a
collision overwrites the stored data verbatim (and returns FALSE). -/
def bpTabInsertOrUpdate (t : BPTables) (key : BreakpointKey) (data : BreakpointData) :
    BPTables × Bool :=
  match alookup t.bps key with
  | some _ => (⟨aupdate t.bps key data, t.counts⟩, false)
  | none =>
      (⟨(key, { data with busy := false }) :: t.bps,
        breakCountInsert t.counts (bcKeyOf key)⟩, true)

/-- Body of BreakpointDelete: HASH_REMOVE; when an entry was removed, also
run breakCountDelete. -/
def bpTabDelete (t : BPTables) (key : BreakpointKey) : BPTables × Bool :=
  match alookup t.bps key with
  | some _ => (⟨aerase t.bps key, breakCountDelete t.counts (bcKeyOf key)⟩, true)
  | none => (t, false)

/-- BreakpointLookup from plugin_debugger.c. -/
def BreakpointLookup (st : RegistryState) (scope : eBreakpointScope)
    (key : BreakpointKey) : Option BreakpointData :=
  bpTabLookup (getTable st scope) key

/-- BreakpointOnId from plugin_debugger.c: one breakcount lookup under
(MyProc->databaseId, funcOid); answers whether any breakpoint is marked on
the entity. -/
def BreakpointOnId (st : RegistryState) (scope : eBreakpointScope)
    (myDatabaseId : Nat) (funcOid : Nat) : Bool :=
  (breakCountLookup (getTable st scope).counts ⟨myDatabaseId, funcOid⟩).2

/-- BreakpointInsert from plugin_debugger.c. -/
def BreakpointInsert (st : RegistryState) (scope : eBreakpointScope)
    (key : BreakpointKey) (data : BreakpointData) : RegistryState × Bool :=
  let r := bpTabInsert (getTable st scope) key data
  (setTable st scope r.1, r.2)

/-- BreakpointInsertOrUpdate from plugin_debugger.c. -/
def BreakpointInsertOrUpdate (st : RegistryState) (scope : eBreakpointScope)
    (key : BreakpointKey) (data : BreakpointData) : RegistryState × Bool :=
  let r := bpTabInsertOrUpdate (getTable st scope) key data
  (setTable st scope r.1, r.2)

/-- BreakpointDelete from plugin_debugger.c. -/
def BreakpointDelete (st : RegistryState) (scope : eBreakpointScope)
    (key : BreakpointKey) : RegistryState × Bool :=
  let r := bpTabDelete (getTable st scope) key
  (setTable st scope r.1, r.2)

/-- Loop body of BreakpointBusySession: iterate over the global breakpoint
hash; every entry owned by the given proxy pid is first copied (localCopy),
then marked busy in place, and the copy - its targetPid retargeted at the
calling process - is pushed into the local table with
BreakpointInsertOrUpdate.  Returns the new global entry list and the new
local table. -/
def busyGo (pid selfPid : Int) :
    List (BreakpointKey × BreakpointData) → BPTables →
    List (BreakpointKey × BreakpointData) × BPTables
  | [], loc => ([], loc)
  | e :: rest, loc =>
      if e.2.proxyPid = pid then
        let loc1 := (bpTabInsertOrUpdate loc { e.1 with targetPid := selfPid } e.2).1
        let r := busyGo pid selfPid rest loc1
        ((e.1, { e.2 with busy := true }) :: r.1, r.2)
      else
        let r := busyGo pid selfPid rest loc
        (e :: r.1, r.2)

/-- BreakpointBusySession from plugin_debugger.c; selfPid stands for
MyProc->pid of the process running the scan. -/
def BreakpointBusySession (st : RegistryState) (pid selfPid : Int) :
    RegistryState :=
  let r := busyGo pid selfPid st.glob.bps st.loc
  ⟨⟨r.1, st.glob.counts⟩, r.2⟩

/-- BreakpointFreeSession from plugin_debugger.c: clear the busy flag on
every global entry owned by the given proxy pid. -/
def BreakpointFreeSession (st : RegistryState) (pid : Int) : RegistryState :=
  { st with
    glob :=
      ⟨st.glob.bps.map
        (fun e => if e.2.proxyPid = pid then (e.1, { e.2 with busy := false }) else e),
       st.glob.counts⟩ }

/-- Loop body of BreakpointCleanupProc: walk the (snapshot of the) global
entry list, removing every entry owned by the given proxy pid from the
global table and decrementing its breakcount. -/
def cleanupGo (pid : Int) :
    List (BreakpointKey × BreakpointData) → BPTables → BPTables
  | [], t => t
  | e :: rest, t =>
      cleanupGo pid rest (if e.2.proxyPid = pid then (bpTabDelete t e.1).1 else t)

/-- BreakpointCleanupProc from plugin_debugger.c (local breakpoints are not
touched). -/
def BreakpointCleanupProc (st : RegistryState) (pid : Int) : RegistryState :=
  { st with glob := cleanupGo pid st.glob.bps st.glob }

/-- Third search of breakAtThisLine: a local breakpoint at this line,
targeted at our own process id. -/
def batlSearch3 (st : RegistryState) (kSelf : BreakpointKey) :
    Option (Option (BreakpointKey × BreakpointData) × eBreakpointScope) :=
  match BreakpointLookup st BP_LOCAL kSelf with
  | some d => some (some (kSelf, d), BP_LOCAL)
  | none => none

/-- Second search of breakAtThisLine: a global breakpoint at this line not
targeting a specific process (targetPid = -1), taken only when not busy. -/
def batlSearch2 (st : RegistryState) (kSelf : BreakpointKey) :
    Option (Option (BreakpointKey × BreakpointData) × eBreakpointScope) :=
  match BreakpointLookup st BP_GLOBAL { kSelf with targetPid := -1 } with
  | some d =>
      if d.busy = true then batlSearch3 st kSelf
      else some (some ({ kSelf with targetPid := -1 }, d), BP_GLOBAL)
  | none => batlSearch3 st kSelf

/-- breakAtThisLine from plugin_debugger.c.  Returns none for FALSE; for
TRUE it returns the dst/scope output pair (dst is none in the
step_into_next_func shortcut, where the C code sets *dst = NULL).  The three
searches run in the documented order: global targeted at our pid, global
targeted at any pid, local. -/
def breakAtThisLine (st : RegistryState) (stepIntoNextFunc : Bool)
    (myDatabaseId : Nat) (myPid : Int) (funcOid : Nat) (lineNumber : Int) :
    Option (Option (BreakpointKey × BreakpointData) × eBreakpointScope) :=
  if stepIntoNextFunc then some (none, BP_LOCAL)
  else
    let kSelf : BreakpointKey := ⟨myDatabaseId, funcOid, lineNumber, myPid⟩
    match BreakpointLookup st BP_GLOBAL kSelf with
    | some d =>
        if d.busy = true then batlSearch2 st kSelf
        else some (some (kSelf, d), BP_GLOBAL)
    | none => batlSearch2 st kSelf

/-- States of the registry reachable from the empty registry by the
breakpoint mutators. -/
inductive Reachable : RegistryState → Prop
  | init : Reachable emptyRegistry
  | insert (st : RegistryState) (scope : eBreakpointScope) (key : BreakpointKey)
      (data : BreakpointData) :
      Reachable st → Reachable (BreakpointInsert st scope key data).1
  | insertOrUpdate (st : RegistryState) (scope : eBreakpointScope)
      (key : BreakpointKey) (data : BreakpointData) :
      Reachable st → Reachable (BreakpointInsertOrUpdate st scope key data).1
  | delete (st : RegistryState) (scope : eBreakpointScope) (key : BreakpointKey) :
      Reachable st → Reachable (BreakpointDelete st scope key).1
  | busy (st : RegistryState) (pid selfPid : Int) :
      Reachable st → Reachable (BreakpointBusySession st pid selfPid)
  | free (st : RegistryState) (pid : Int) :
      Reachable st → Reachable (BreakpointFreeSession st pid)
  | cleanup (st : RegistryState) (pid : Int) :
      Reachable st → Reachable (BreakpointCleanupProc st pid)

/-- Keys of the entries of a breakpoint table, in order. -/
def bpsKeys (bps : List (BreakpointKey × BreakpointData)) : List BreakpointKey :=
  bps.map Prod.fst

/-- Well-formedness of one scope: no duplicate breakpoint keys, and the
breakcount hash stores, for every (databaseId, functionId), exactly the
number of breakpoints with that prefix - with the entry absent when that
number is zero. -/
def tableWF (t : BPTables) : Prop :=
  (bpsKeys t.bps).Nodup ∧
  ∀ ck : BreakCountKey,
    alookup t.counts ck =
      if entityCnt t.bps ck = 0 then none else some (entityCnt t.bps ck : Int)

/-- Well-formedness of both scopes. -/
def registryWF (st : RegistryState) : Prop :=
  tableWF st.glob ∧ tableWF st.loc

/-!
Wire codec (sendString / sendUInt32 / getNString / readUInt32 from
plugin_debugger.c).  A byte stream is a list of byte values; writing
produces the bytes in transmission order and reading consumes from the
front.  readn is modelled here as taking exactly the requested number of
bytes off the stream (none when the peer never supplies them); the loop and
error structure of readn itself is modelled separately below for claim C6.
-/

/-- Big-endian byte image of a 32-bit value, as laid out by htonl. -/
def writeBE32 (n : Nat) : List Nat :=
  [n / 2 ^ 24 % 256, n / 2 ^ 16 % 256, n / 2 ^ 8 % 256, n % 256]

/-- sendUInt32: htonl followed by writen of the 4 bytes.  The C argument is
a uint32, so a wider value is truncated on the implicit conversion. -/
def sendUInt32 (val : Nat) : List Nat :=
  writeBE32 (val % 2 ^ 32)

/-- sendString: the length of the string as a 4-byte big-endian uint32,
then the raw bytes, with no terminator. -/
def sendString (src : List Nat) : List Nat :=
  sendUInt32 src.length ++ src

/-- readUInt32: readn of 4 bytes followed by ntohl.  Returns the value and
the rest of the stream, or none when the stream has fewer than 4 bytes. -/
def readUInt32 (stream : List Nat) : Option (Nat × List Nat) :=
  match stream with
  | b0 :: b1 :: b2 :: b3 :: rest =>
      some (((b0 * 256 + b1) * 256 + b2) * 256 + b3, rest)
  | _ => none

/-- getNString: read the 4-byte length; a length of 0 yields the NULL
sentinel, otherwise readn exactly that many bytes (none when the stream
cannot supply them). -/
def getNString (stream : List Nat) : Option (Option (List Nat) × List Nat) :=
  match readUInt32 stream with
  | none => none
  | some (len, rest) =>
      if len = 0 then some (none, rest)
      else if len ≤ rest.length then some (rest.take len, rest.drop len)
      else none

/-!
Byte-exact model of the readn / writen loops and of handle_socket_error
(non-Windows branch), for claim C6.  A socket call result is either a byte
count or a failure with an errno value.
-/

/-- Errno values distinguished by handle_socket_error (non-Windows). -/
inductive SockErr : Type
  | eintr
  | econnrefused
  | epipe
  | enotconn
  | enotsock
  | eagain
  | efault
  | enomem
  | einval
  | other
deriving DecidableEq, Repr

/-- handle_socket_error, non-Windows branch: abort starts out TRUE, the
first group of cases sets it TRUE again, the second group merely breaks -
so every errno value leads to the siglongjmp to client_lost. -/
def handleSocketErrorAborts (err : SockErr) : Bool :=
  match err with
  | .eintr | .econnrefused | .epipe | .enotconn => true
  | .enotsock | .eagain | .efault | .einval | .enomem | .other => true

/-- Result of one recv() call: got n is a return value of n (n = 0 is the
orderly-shutdown return), errored e is a return of -1 with errno = e. -/
inductive RecvResult : Type
  | got (n : Nat)
  | errored (err : SockErr)
deriving DecidableEq, Repr

/-- Outcome of a readn call: done records the (offset, length) buffer writes
performed and the unconsumed recv results; starved means the recv results
ran out with bytesRemaining still positive; lost is the siglongjmp taken by
handle_socket_error. -/
inductive ReadnOutcome : Type
  | done (writes : List (Int × Nat)) (restEvents : List RecvResult)
  | starved (bytesRemaining : Int) (writes : List (Int × Nat))
  | lost
deriving DecidableEq, Repr

/-- Loop of readn from plugin_debugger.c, one iteration per recv result:
while bytesRemaining > 0, recv; if the result is non-positive and errno is
not EINTR, handle_socket_error (which always longjmps); otherwise fall
through to bytesRemaining -= bytesRead and buffer += bytesRead - including
for bytesRead = -1 under EINTR, where the subtraction of -1 grows
bytesRemaining and moves the buffer pointer back one byte. -/
def readnLoop (bytesRemaining : Int) (offset : Int) (writes : List (Int × Nat)) :
    List RecvResult → ReadnOutcome
  | [] => if bytesRemaining ≤ 0 then .done writes [] else .starved bytesRemaining writes
  | ev :: rest =>
      if bytesRemaining ≤ 0 then .done writes (ev :: rest)
      else
        match ev with
        | .got n =>
            if n = 0 then .lost
            else readnLoop (bytesRemaining - n) (offset + n)
              (writes ++ [(offset, n)]) rest
        | .errored e =>
            if e = SockErr.eintr then
              readnLoop (bytesRemaining - (-1)) (offset + (-1)) writes rest
            else if handleSocketErrorAborts e then .lost
            else readnLoop (bytesRemaining - (-1)) (offset + (-1)) writes rest

/-- readn(peer, dst, len) over a given list of recv results. -/
def readn (len : Nat) (evs : List RecvResult) : ReadnOutcome :=
  readnLoop len 0 [] evs

/-- Result of one send() call, in the same encoding as RecvResult. -/
inductive SendResult : Type
  | sent (n : Nat)
  | errored (err : SockErr)
deriving DecidableEq, Repr

/-- Outcome of a writen call. -/
inductive WritenOutcome : Type
  | done (restEvents : List SendResult)
  | starved (bytesRemaining : Int)
  | lost
deriving DecidableEq, Repr

/-- Loop of writen from plugin_debugger.c: while bytesRemaining > 0, send;
ANY non-positive return - including -1 under EINTR - calls
handle_socket_error, which always longjmps on the non-Windows branch;
otherwise bytesRemaining -= bytesWritten. -/
def writenLoop (bytesRemaining : Int) : List SendResult → WritenOutcome
  | [] => if bytesRemaining ≤ 0 then .done [] else .starved bytesRemaining
  | ev :: rest =>
      if bytesRemaining ≤ 0 then .done (ev :: rest)
      else
        match ev with
        | .sent n =>
            if n = 0 then .lost
            else writenLoop (bytesRemaining - n) rest
        | .errored e =>
            if handleSocketErrorAborts e then .lost
            else writenLoop (bytesRemaining - (-1)) rest

/-- writen(peer, src, len) over a given list of send results. -/
def writen (len : Nat) (evs : List SendResult) : WritenOutcome :=
  writenLoop len evs

/-!
Rendezvous slot model, from dbgcomm.c.  The shared slot pool is a list of
dbgcomm_target_slot_t; socket descriptors are abstracted away and the
success of a connect() call is an input.
-/

/-- Slot status values DBGCOMM_IDLE, DBGCOMM_LISTENING_FOR_PROXY,
DBGCOMM_PROXY_CONNECTING, DBGCOMM_CONNECTING_TO_PROXY. -/
inductive SlotStatus : Type
  | DBGCOMM_IDLE
  | DBGCOMM_LISTENING_FOR_PROXY
  | DBGCOMM_PROXY_CONNECTING
  | DBGCOMM_CONNECTING_TO_PROXY
deriving DecidableEq, Repr

export SlotStatus (DBGCOMM_IDLE DBGCOMM_LISTENING_FOR_PROXY
  DBGCOMM_PROXY_CONNECTING DBGCOMM_CONNECTING_TO_PROXY)

/-- dbgcomm_target_slot_t from dbgcomm.c. -/
structure TargetSlot : Type where
  backendid : Int
  status : SlotStatus
  pid : Int
  port : Int
deriving DecidableEq, Repr

/-- InvalidBackendId from PostgreSQL. -/
def InvalidBackendId : Int := -1

/-- The slot pool. -/
abbrev SlotPool : Type := List TargetSlot

/-- Slot at an index. -/
def slotAt? : SlotPool → Nat → Option TargetSlot
  | [], _ => none
  | s :: _, 0 => some s
  | _ :: rest, n + 1 => slotAt? rest n

/-- In-place mutation of the slot at an index. -/
def modifySlot : SlotPool → Nat → (TargetSlot → TargetSlot) → SlotPool
  | [], _, _ => []
  | s :: rest, 0, f => f s :: rest
  | s :: rest, n + 1, f => s :: modifySlot rest n f

/-- findFreeTargetSlot from dbgcomm.c: the first slot whose backendid is
InvalidBackendId, or - leftover-slot recovery - the first slot already owned
by the calling backend. -/
def findFreeTargetSlot : SlotPool → Int → Option Nat
  | [], _ => none
  | s :: rest, myBackendId =>
      if s.backendid = InvalidBackendId ∨ s.backendid = myBackendId then some 0
      else (findFreeTargetSlot rest myBackendId).map (· + 1)

/-- findTargetSlot from dbgcomm.c: the slot belonging to a backend. -/
def findTargetSlot : SlotPool → Int → Option Nat
  | [], _ => none
  | s :: rest, backendid =>
      if s.backendid = backendid then some 0
      else (findTargetSlot rest backendid).map (· + 1)

/-- Scan of dbgcomm_accept_target over the pool: the first slot with status
DBGCOMM_CONNECTING_TO_PROXY whose recorded port equals the source port of
the accepted connection. -/
def findConnectingIdx (pool : SlotPool) (remotePort : Int) :
    Option (Nat × TargetSlot) :=
  match pool with
  | [] => none
  | s :: rest =>
      if s.status = DBGCOMM_CONNECTING_TO_PROXY ∧ s.port = remotePort then
        some (0, s)
      else (findConnectingIdx rest remotePort).map (fun r => (r.1 + 1, r.2))

/-- dbgcomm_connect_to_proxy from dbgcomm.c, after the socket is bound to
localPort: allocate a free slot, record (port, CONNECTING_TO_PROXY,
backendid, pid), then connect; on connect failure reset the slot (status
IDLE, backendid invalid, port 0) and fail.  On success the slot is left for
the proxy to reset.  Also fails, with the pool untouched, when no slot is
free. -/
def dbgcomm_connect_to_proxy (pool : SlotPool) (myBackendId myPid localPort : Int)
    (connectOk : Bool) : SlotPool × Bool :=
  match findFreeTargetSlot pool myBackendId with
  | none => (pool, false)
  | some slot =>
      let pool1 := modifySlot pool slot (fun s =>
        { s with port := localPort, status := DBGCOMM_CONNECTING_TO_PROXY,
                 backendid := myBackendId, pid := myPid })
      if connectOk then (pool1, true)
      else
        (modifySlot pool1 slot (fun s =>
          { s with status := DBGCOMM_IDLE, backendid := InvalidBackendId,
                   port := 0 }), false)

/-- Slot-allocation half of dbgcomm_listen_for_proxy: after bind/listen on
localport, allocate a free slot and record (localport, LISTENING_FOR_PROXY,
backendid, pid).  Returns the slot index. -/
def dbgcomm_listen_for_proxy_register (pool : SlotPool)
    (myBackendId myPid localport : Int) : SlotPool × Option Nat :=
  match findFreeTargetSlot pool myBackendId with
  | none => (pool, none)
  | some slot =>
      (modifySlot pool slot (fun s =>
        { s with port := localport, status := DBGCOMM_LISTENING_FOR_PROXY,
                 backendid := myBackendId, pid := myPid }), some slot)

/-- One accepted connection inside the accept loop of
dbgcomm_listen_for_proxy: authenticated exactly when the slot is in status
DBGCOMM_PROXY_CONNECTING and its recorded port equals the source port of
the connection; on a match the slot is reset (backendid invalid, status
IDLE) and the loop ends, otherwise the connection is closed and the loop
continues with the pool untouched. -/
def dbgcomm_listen_for_proxy_accept_one (pool : SlotPool) (slot : Nat)
    (remotePort : Int) : SlotPool × Bool :=
  match slotAt? pool slot with
  | some s =>
      if s.status = DBGCOMM_PROXY_CONNECTING ∧ s.port = remotePort then
        (modifySlot pool slot (fun s =>
          { s with backendid := InvalidBackendId, status := DBGCOMM_IDLE }), true)
      else (pool, false)
  | none => (pool, false)

/-- Accept loop of dbgcomm_listen_for_proxy over a list of accepted
connections, each carrying the snapshot of our slot at the moment of the
authentication check together with the connection source port.  Returns
the snapshot/port pair of the first authenticated connection; every earlier
connection is closed and listening resumes; none means still listening. -/
def listenAuthLoop : List (TargetSlot × Int) → Option (TargetSlot × Int)
  | [] => none
  | (snap, remotePort) :: rest =>
      if snap.status = DBGCOMM_PROXY_CONNECTING ∧ snap.port = remotePort then
        some (snap, remotePort)
      else listenAuthLoop rest

/-- dbgcomm_connect_to_target from dbgcomm.c, after the socket is bound to
myLocalPort: find the target backend slot; error out (pool untouched) if it
is missing or not in LISTENING_FOR_PROXY; otherwise record our source port
and PROXY_CONNECTING in it and connect.  On connect failure the function
raises an error WITHOUT touching the slot again (the XXX comment in the
source), leaving it in PROXY_CONNECTING. -/
def dbgcomm_connect_to_target (pool : SlotPool) (targetBackend myLocalPort : Int)
    (connectOk : Bool) : SlotPool × Bool :=
  match findTargetSlot pool targetBackend with
  | none => (pool, false)
  | some slot =>
      match slotAt? pool slot with
      | none => (pool, false)
      | some s =>
          if s.status = DBGCOMM_LISTENING_FOR_PROXY then
            let pool1 := modifySlot pool slot (fun s =>
              { s with port := myLocalPort, status := DBGCOMM_PROXY_CONNECTING })
            (pool1, connectOk)
          else (pool, false)

/-- One accepted connection inside the loop of dbgcomm_accept_target:
authenticated exactly when some slot in status DBGCOMM_CONNECTING_TO_PROXY
records the source port of the connection; on a match that slot status is
reset to IDLE and the target pid stored in the slot is returned; otherwise
the connection is closed and the loop continues. -/
def dbgcomm_accept_target_one (pool : SlotPool) (remotePort : Int) :
    SlotPool × Option Int :=
  match findConnectingIdx pool remotePort with
  | some r =>
      (modifySlot pool r.1 (fun s => { s with status := DBGCOMM_IDLE }),
       some r.2.pid)
  | none => (pool, none)

/-- Accept loop of dbgcomm_accept_target over a list of accepted
connections, each carrying the snapshot of the whole pool at the moment of
the scan together with the connection source port.  Returns the pid
recorded in the first matching slot; non-matching connections are closed
and listening resumes. -/
def acceptTargetLoop : List (SlotPool × Int) → Option Int
  | [] => none
  | (pool, remotePort) :: rest =>
      match findConnectingIdx pool remotePort with
      | some r => some r.2.pid
      | none => acceptTargetLoop rest

/-!
Deposit command model (do_deposit from plugin_debugger.c).  The command
text is a list of characters; find_datum_by_name and the assign_expr
callback are oracles supplied by the environment.  The observable behaviour
is the trace of subtransaction operations, assignment attempts and replies.
-/

/-- strchr: index of the first occurrence of a character. -/
def strchrIdx : List Char → Char → Option Nat
  | [], _ => none
  | x :: xs, c => if x = c then some 0 else (strchrIdx xs c).map (· + 1)

/-- atoi on the digit part of a string (leading sign, then a digit run). -/
def atoiLoop : List Char → Nat → Nat
  | [], acc => acc
  | c :: cs, acc =>
      if c.isDigit then atoiLoop cs (acc * 10 + (c.toNat - 48)) else acc

/-- atoi from the C library, restricted to the forms do_deposit feeds it. -/
def atoi (s : List Char) : Int :=
  match s with
  | '-' :: cs => -(atoiLoop cs 0 : Int)
  | _ => (atoiLoop s 0 : Int)

/-- Observable steps of do_deposit: subtransaction begin / release /
rollback, an assignment attempt of a query string, and a reply sent to the
client. -/
inductive DepositEv : Type
  | beginSub
  | tryAssign (query : List Char)
  | releaseSub
  | rollbackSub
  | send (reply : Char)
deriving DecidableEq, Repr

/-- The single-quote character, written by code point to keep it out of the
source text. -/
def sq : Char := Char.ofNat 39

/-- The segment of a character buffer from position a up to (exclusive)
position b: what printing a C string starting at a yields when the next NUL
byte sits at b. -/
def seg (l : List Char) (a b : Nat) : List Char :=
  (l.take b).drop a

/-- do_deposit from plugin_debugger.c.  The command has the layout
d:var.line=expr; var_name points 2 characters in; the value is split off at
the first = and the line number at the first period (both searched from
var_name, in that order, each write of a NUL terminator shortening whichever
segment contains it).  A missing = or period, or an unresolved variable,
replies f.  Otherwise SELECT expr is attempted inside a subtransaction:
success releases the subtransaction and replies t; failure rolls it back
and retries with the value single-quoted, replying t on success and f only
when the quoted retry also fails. -/
def do_deposit (command : List Char)
    (find_datum_by_name : List Char → Int → Bool)
    (assign_expr : List Char → Bool) : List DepositEv :=
  let var_name := command.drop 2
  match strchrIdx var_name '=', strchrIdx var_name '.' with
  | some ie, some id =>
      let name := var_name.take (min ie id)
      let lineno := if id < ie then seg var_name (id + 1) ie
                    else var_name.drop (id + 1)
      let value := if ie < id then seg var_name (ie + 1) id
                   else var_name.drop (ie + 1)
      if find_datum_by_name name (if lineno.length = 0 then -1 else atoi lineno) then
        let select1 := ("SELECT ".data) ++ value
        let select2 := ("SELECT ".data) ++ [sq] ++ value ++ [sq]
        [DepositEv.beginSub, DepositEv.tryAssign select1] ++
          (if assign_expr select1 then [DepositEv.releaseSub, DepositEv.send 't']
           else
             [DepositEv.rollbackSub, DepositEv.beginSub, DepositEv.tryAssign select2] ++
               (if assign_expr select2 then [DepositEv.releaseSub, DepositEv.send 't']
                else [DepositEv.rollbackSub, DepositEv.send 'f']))
      else [DepositEv.send 'f']
  | _, _ => [DepositEv.send 'f']

/-!
Concrete inputs used by the witness theorems.
-/

/-- Breakpoint key targeted at process 101 on (db 7, function 42, line 10). -/
def kSelfW : BreakpointKey := ⟨7, 42, 10, 101⟩

/-- Same location, targeted at any process. -/
def kAnyW : BreakpointKey := ⟨7, 42, 10, -1⟩

/-- Global breakpoint data owned by proxy 55. -/
def d1W : BreakpointData := ⟨false, false, 9000, 55⟩

/-- Global breakpoint data owned by proxy 56. -/
def d2W : BreakpointData := ⟨false, false, 9000, 56⟩

/-- Local breakpoint data. -/
def d3W : BreakpointData := ⟨false, false, -1, -1⟩

/-- Registry holding a process-targeted global breakpoint, an any-process
global breakpoint and a local breakpoint, all on (db 7, function 42,
line 10). -/
def stW : RegistryState :=
  ⟨⟨[(kSelfW, d1W), (kAnyW, d2W)], [(⟨7, 42⟩, 2)]⟩,
   ⟨[(kSelfW, d3W)], [(⟨7, 42⟩, 1)]⟩⟩

/-- Second key on the same entity as kSelfW but a different line. -/
def kLine11W : BreakpointKey := ⟨7, 42, 11, 101⟩

/-- Reachable registry for the breakcount witness: two inserts on the same
entity at distinct lines, then deletion of the first. -/
def stC3W : RegistryState :=
  (BreakpointDelete
    (BreakpointInsert
      (BreakpointInsert emptyRegistry BP_GLOBAL kSelfW d1W).1
      BP_GLOBAL kLine11W d1W).1
    BP_GLOBAL kSelfW).1

/-- Accepted-connection snapshots for the listen_for_proxy witness: a decoy
(slot not yet in PROXY_CONNECTING) followed by the real proxy connection
from source port 6666. -/
def evListenW : List (TargetSlot × Int) :=
  [(⟨5, DBGCOMM_LISTENING_FOR_PROXY, 101, 5432⟩, 6666),
   (⟨5, DBGCOMM_PROXY_CONNECTING, 101, 6666⟩, 6666)]

/-- Accepted-connection snapshots for the accept_target witness: a decoy
from an unregistered source port, then a connection matching the slot of
target pid 101. -/
def evAcceptW : List (SlotPool × Int) :=
  [([⟨5, DBGCOMM_CONNECTING_TO_PROXY, 101, 7777⟩], 6666),
   ([⟨5, DBGCOMM_CONNECTING_TO_PROXY, 101, 6666⟩], 6666)]

/-- One-slot pool with the slot free. -/
def poolW : SlotPool := [⟨InvalidBackendId, DBGCOMM_IDLE, 0, 0⟩]

/-- Pool after backend 5 (pid 101) started listening on port 5432. -/
def poolListenW : SlotPool :=
  (dbgcomm_listen_for_proxy_register poolW 5 101 5432).1

/-!
Association list lemmas.
-/

theorem alookup_eq_none {α β : Type} [DecidableEq α] {l : List (α × β)} {k : α} :
    alookup l k = none ↔ ∀ e ∈ l, e.1 ≠ k := by
  induction l with
  | nil => simp [alookup]
  | cons p t ih =>
      by_cases h : p.1 = k <;> simp [alookup, h, ih]

theorem alookup_eq_none_of_not_mem_keys {α β : Type} [DecidableEq α]
    {l : List (α × β)} {k : α} (h : k ∉ l.map Prod.fst) : alookup l k = none := by
  rw [alookup_eq_none]
  intro e he hek
  exact h (hek ▸ List.mem_map_of_mem Prod.fst he)

theorem not_mem_keys_of_alookup_eq_none {α β : Type} [DecidableEq α]
    {l : List (α × β)} {k : α} (h : alookup l k = none) : k ∉ l.map Prod.fst := by
  rw [alookup_eq_none] at h
  intro hk
  obtain ⟨e, he, hek⟩ := List.mem_map.mp hk
  exact h e he hek

theorem alookup_aupdate_self {α β : Type} [DecidableEq α] {l : List (α × β)}
    {k : α} {d : β} (v : β) (h : alookup l k = some d) :
    alookup (aupdate l k v) k = some v := by
  induction l with
  | nil => simp [alookup] at h
  | cons p t ih =>
      by_cases hp : p.1 = k
      · simp [alookup, aupdate, hp]
      · simp [alookup, hp] at h
        simp [alookup, aupdate, hp, ih h]

theorem alookup_aupdate_ne {α β : Type} [DecidableEq α] {l : List (α × β)}
    {k k' : α} (v : β) (h : k' ≠ k) :
    alookup (aupdate l k v) k' = alookup l k' := by
  induction l with
  | nil => simp [aupdate]
  | cons p t ih =>
      by_cases hp : p.1 = k
      · simp [alookup, aupdate, hp, Ne.symm h, ih]
      · by_cases hp' : p.1 = k' <;> simp [alookup, aupdate, hp, hp', ih, h]

theorem aupdate_map_fst {α β : Type} [DecidableEq α] (l : List (α × β))
    (k : α) (v : β) : (aupdate l k v).map Prod.fst = l.map Prod.fst := by
  induction l with
  | nil => simp [aupdate]
  | cons p t ih =>
      by_cases hp : p.1 = k <;> simp [aupdate, hp, ih]

theorem alookup_aerase_self {α β : Type} [DecidableEq α] (l : List (α × β))
    (k : α) : alookup (aerase l k) k = none := by
  induction l with
  | nil => simp [aerase, alookup]
  | cons p t ih =>
      by_cases hp : p.1 = k <;> simp [aerase, alookup, hp, ih]

theorem alookup_aerase_ne {α β : Type} [DecidableEq α] {l : List (α × β)}
    {k k' : α} (h : k' ≠ k) :
    alookup (aerase l k) k' = alookup l k' := by
  induction l with
  | nil => simp [aerase]
  | cons p t ih =>
      by_cases hp : p.1 = k
      · have : ¬p.1 = k' := by rw [hp]; exact Ne.symm h
        simp [aerase, alookup, hp, this, ih, Ne.symm h]
      · by_cases hp' : p.1 = k' <;> simp [aerase, alookup, hp, hp', ih, h]

theorem aerase_sublist {α β : Type} [DecidableEq α] (l : List (α × β)) (k : α) :
    (aerase l k).Sublist l := by
  induction l with
  | nil => simp [aerase]
  | cons p t ih =>
      by_cases hp : p.1 = k
      · simpa [aerase, hp] using ih.cons p
      · simpa [aerase, hp] using ih.cons₂ p

theorem aerase_of_none {α β : Type} [DecidableEq α] {l : List (α × β)} {k : α}
    (h : alookup l k = none) : aerase l k = l := by
  induction l with
  | nil => simp [aerase]
  | cons p t ih =>
      by_cases hp : p.1 = k
      · simp [alookup, hp] at h
      · simp [alookup, hp] at h
        simp [aerase, hp, ih h]

/-!
Entity-count lemmas.
-/

theorem entityCnt_nil (ck : BreakCountKey) : entityCnt [] ck = 0 := rfl

theorem entityCnt_cons (e : BreakpointKey × BreakpointData)
    (l : List (BreakpointKey × BreakpointData)) (ck : BreakCountKey) :
    entityCnt (e :: l) ck = entityCnt l ck + (if bcKeyOf e.1 = ck then 1 else 0) := by
  by_cases h : bcKeyOf e.1 = ck <;> simp [entityCnt, List.countP_cons, h]

theorem entityCnt_aupdate (l : List (BreakpointKey × BreakpointData))
    (k : BreakpointKey) (v : BreakpointData) (ck : BreakCountKey) :
    entityCnt (aupdate l k v) ck = entityCnt l ck := by
  induction l with
  | nil => simp [aupdate]
  | cons p t ih =>
      by_cases hp : p.1 = k <;> simp [aupdate, hp, entityCnt_cons, ih]

theorem entityCnt_aerase {l : List (BreakpointKey × BreakpointData)}
    {k : BreakpointKey} {d : BreakpointData}
    (hnd : (l.map Prod.fst).Nodup) (h : alookup l k = some d) (ck : BreakCountKey) :
    entityCnt l ck = entityCnt (aerase l k) ck + (if bcKeyOf k = ck then 1 else 0) := by
  induction l with
  | nil => simp [alookup] at h
  | cons p t ih =>
      simp only [List.map_cons, List.nodup_cons] at hnd
      by_cases hp : p.1 = k
      · have ht : alookup t k = none := by
          apply alookup_eq_none_of_not_mem_keys
          rw [← hp]
          exact hnd.1
        rw [aerase, if_pos hp, aerase_of_none ht, entityCnt_cons, hp]
      · simp only [alookup] at h
        rw [if_neg hp] at h
        rw [aerase, if_neg hp, entityCnt_cons, entityCnt_cons, ih hnd.2 h]
        omega

theorem entityCnt_map_keyfix
    {f : BreakpointKey × BreakpointData → BreakpointKey × BreakpointData}
    (hf : ∀ e, (f e).1 = e.1) (l : List (BreakpointKey × BreakpointData))
    (ck : BreakCountKey) : entityCnt (l.map f) ck = entityCnt l ck := by
  induction l with
  | nil => simp
  | cons p t ih => simp [entityCnt_cons, hf, ih]

theorem map_keyfix_fst
    {f : BreakpointKey × BreakpointData → BreakpointKey × BreakpointData}
    (hf : ∀ e, (f e).1 = e.1) (l : List (BreakpointKey × BreakpointData)) :
    (l.map f).map Prod.fst = l.map Prod.fst := by
  induction l with
  | nil => simp
  | cons p t ih => simp [hf, ih]

theorem alookup_map_keyfix
    {f : BreakpointKey × BreakpointData → BreakpointKey × BreakpointData}
    (hf : ∀ e, (f e).1 = e.1) (l : List (BreakpointKey × BreakpointData))
    (k : BreakpointKey) :
    alookup (l.map f) k = (alookup l k).map (fun d => (f (k, d)).2) := by
  induction l with
  | nil => simp [alookup]
  | cons p t ih =>
      obtain ⟨a, b⟩ := p
      by_cases hp : a = k
      · subst hp
        simp [alookup, hf, ih]
      · simp [alookup, hf, hp, ih]

/-!
Well-formedness preservation for the registry mutators.
-/

theorem breakCountInsert_inv {counts : List (BreakCountKey × Int)}
    {bps : List (BreakpointKey × BreakpointData)}
    (hc : ∀ ck : BreakCountKey,
      alookup counts ck =
        if entityCnt bps ck = 0 then none else some (entityCnt bps ck : Int))
    (k : BreakpointKey) (d : BreakpointData) (ck : BreakCountKey) :
    alookup (breakCountInsert counts (bcKeyOf k)) ck =
      if entityCnt ((k, d) :: bps) ck = 0 then none
      else some (entityCnt ((k, d) :: bps) ck : Int) := by
  by_cases hk : bcKeyOf k = ck
  · subst hk
    have hcnt : entityCnt ((k, d) :: bps) (bcKeyOf k) = entityCnt bps (bcKeyOf k) + 1 := by
      simpa using entityCnt_cons (k, d) bps (bcKeyOf k)
    rw [breakCountInsert]
    rcases hcl : alookup counts (bcKeyOf k) with _ | c
    · have h0 : entityCnt bps (bcKeyOf k) = 0 := by
        have hx := hc (bcKeyOf k)
        rw [hcl] at hx
        by_contra hz
        rw [if_neg hz] at hx
        exact Option.noConfusion hx
      rw [hcnt, h0]
      simp [alookup]
    · have hx := hc (bcKeyOf k)
      rw [hcl] at hx
      have hz : entityCnt bps (bcKeyOf k) ≠ 0 := by
        by_contra hz0
        rw [if_pos hz0] at hx
        exact Option.noConfusion hx
      rw [if_neg hz] at hx
      have hceq : c = (entityCnt bps (bcKeyOf k) : Int) := Option.some.inj hx
      rw [alookup_aupdate_self (c + 1) hcl, hcnt, if_neg (by omega), hceq]
      push_cast
      rfl
  · have hcnt : entityCnt ((k, d) :: bps) ck = entityCnt bps ck := by
      simpa [hk] using entityCnt_cons (k, d) bps ck
    have hlook : alookup (breakCountInsert counts (bcKeyOf k)) ck = alookup counts ck := by
      rw [breakCountInsert]
      rcases hcl : alookup counts (bcKeyOf k) with _ | c
      · simp [alookup, hk]
      · exact alookup_aupdate_ne (c + 1) (Ne.symm hk)
    rw [hlook, hcnt]
    exact hc ck

theorem bpTabInsert_WF {t : BPTables} (h : tableWF t) (k : BreakpointKey)
    (d : BreakpointData) : tableWF (bpTabInsert t k d).1 := by
  rw [bpTabInsert]
  rcases hl : alookup t.bps k with _ | d0
  · refine ⟨?_, ?_⟩
    · simp only [bpsKeys, List.map_cons, List.nodup_cons]
      exact ⟨not_mem_keys_of_alookup_eq_none hl, h.1⟩
    · intro ck
      exact breakCountInsert_inv h.2 k _ ck
  · exact h

theorem bpTabInsertOrUpdate_WF {t : BPTables} (h : tableWF t) (k : BreakpointKey)
    (d : BreakpointData) : tableWF (bpTabInsertOrUpdate t k d).1 := by
  rw [bpTabInsertOrUpdate]
  rcases hl : alookup t.bps k with _ | d0
  · refine ⟨?_, ?_⟩
    · simp only [bpsKeys, List.map_cons, List.nodup_cons]
      exact ⟨not_mem_keys_of_alookup_eq_none hl, h.1⟩
    · intro ck
      exact breakCountInsert_inv h.2 k _ ck
  · refine ⟨?_, ?_⟩
    · simpa [bpsKeys, aupdate_map_fst] using h.1
    · intro ck
      simpa [entityCnt_aupdate] using h.2 ck

theorem bpTabDelete_WF {t : BPTables} (h : tableWF t) (k : BreakpointKey) :
    tableWF (bpTabDelete t k).1 := by
  rcases hl : alookup t.bps k with _ | d0
  · simp only [bpTabDelete, hl]
    exact h
  · simp only [bpTabDelete, hl]
    have hcnt1 : entityCnt t.bps (bcKeyOf k) =
        entityCnt (aerase t.bps k) (bcKeyOf k) + 1 := by
      simpa using entityCnt_aerase h.1 hl (bcKeyOf k)
    have hck0 : alookup t.counts (bcKeyOf k) =
        some (entityCnt t.bps (bcKeyOf k) : Int) := by
      have hx := h.2 (bcKeyOf k)
      rw [if_neg (by omega)] at hx
      exact hx
    refine ⟨?_, ?_⟩
    · exact List.Nodup.sublist (List.Sublist.map Prod.fst (aerase_sublist t.bps k)) h.1
    · intro ck
      simp only [breakCountDelete, hck0]
      by_cases h1 : (entityCnt t.bps (bcKeyOf k) : Int) - 1 = 0
      · rw [if_pos h1]
        by_cases hk : bcKeyOf k = ck
        · subst hk
          have hz : entityCnt (aerase t.bps k) (bcKeyOf k) = 0 := by omega
          rw [alookup_aerase_self, hz]
          simp
        · have hcnt2 : entityCnt (aerase t.bps k) ck = entityCnt t.bps ck := by
            have hx := entityCnt_aerase h.1 hl ck
            rw [if_neg hk] at hx
            omega
          rw [alookup_aerase_ne (Ne.symm hk), hcnt2]
          exact h.2 ck
      · rw [if_neg h1]
        by_cases hk : bcKeyOf k = ck
        · subst hk
          have hz : ¬entityCnt (aerase t.bps k) (bcKeyOf k) = 0 := by omega
          rw [alookup_aupdate_self _ hck0, if_neg hz]
          congr 1
          omega
        · have hcnt2 : entityCnt (aerase t.bps k) ck = entityCnt t.bps ck := by
            have hx := entityCnt_aerase h.1 hl ck
            rw [if_neg hk] at hx
            omega
          rw [alookup_aupdate_ne _ (Ne.symm hk), hcnt2]
          exact h.2 ck

theorem busyGo_fst (pid selfPid : Int) (bps : List (BreakpointKey × BreakpointData)) :
    ∀ loc : BPTables, (busyGo pid selfPid bps loc).1 =
      bps.map (fun e =>
        if e.2.proxyPid = pid then (e.1, { e.2 with busy := true }) else e) := by
  induction bps with
  | nil => intro loc; simp [busyGo]
  | cons e rest ih =>
      intro loc
      by_cases he : e.2.proxyPid = pid <;> simp [busyGo, he, ih]

theorem busyGo_snd (pid selfPid : Int) (bps : List (BreakpointKey × BreakpointData)) :
    ∀ loc : BPTables, (busyGo pid selfPid bps loc).2 =
      bps.foldl (fun l e =>
        if e.2.proxyPid = pid then
          (bpTabInsertOrUpdate l { e.1 with targetPid := selfPid } e.2).1
        else l) loc := by
  induction bps with
  | nil => intro loc; simp [busyGo]
  | cons e rest ih =>
      intro loc
      by_cases he : e.2.proxyPid = pid <;> simp [busyGo, he, ih]

theorem busyFold_WF (pid selfPid : Int) :
    ∀ (bps : List (BreakpointKey × BreakpointData)) (loc : BPTables), tableWF loc →
      tableWF (bps.foldl (fun l e =>
        if e.2.proxyPid = pid then
          (bpTabInsertOrUpdate l { e.1 with targetPid := selfPid } e.2).1
        else l) loc) := by
  intro bps
  induction bps with
  | nil => intro loc h; simpa using h
  | cons e rest ih =>
      intro loc h
      simp only [List.foldl_cons]
      apply ih
      by_cases he : e.2.proxyPid = pid
      · rw [if_pos he]
        exact bpTabInsertOrUpdate_WF h _ _
      · rwa [if_neg he]

theorem bpTabInsertOrUpdate_isSome_self (t : BPTables) (k : BreakpointKey)
    (d : BreakpointData) :
    (alookup (bpTabInsertOrUpdate t k d).1.bps k).isSome = true := by
  rcases hl : alookup t.bps k with _ | d0
  · simp [bpTabInsertOrUpdate, hl, alookup]
  · simp [bpTabInsertOrUpdate, hl, alookup_aupdate_self d hl]

theorem bpTabInsertOrUpdate_preserves_isSome {t : BPTables} {k' : BreakpointKey}
    (k : BreakpointKey) (d : BreakpointData)
    (h : (alookup t.bps k').isSome = true) :
    (alookup (bpTabInsertOrUpdate t k d).1.bps k').isSome = true := by
  by_cases hk : k' = k
  · subst hk
    exact bpTabInsertOrUpdate_isSome_self t k' d
  · rcases hl : alookup t.bps k with _ | d0
    · simp [bpTabInsertOrUpdate, hl, alookup, hk, Ne.symm hk]
      simpa using h
    · simpa [bpTabInsertOrUpdate, hl, alookup_aupdate_ne d hk] using h

theorem busyFold_preserves_isSome (pid selfPid : Int) :
    ∀ (bps : List (BreakpointKey × BreakpointData)) (loc : BPTables)
      (k' : BreakpointKey), (alookup loc.bps k').isSome = true →
      (alookup ((bps.foldl (fun l e =>
        if e.2.proxyPid = pid then
          (bpTabInsertOrUpdate l { e.1 with targetPid := selfPid } e.2).1
        else l) loc)).bps k').isSome = true := by
  intro bps
  induction bps with
  | nil => intro loc k' h; simpa using h
  | cons e rest ih =>
      intro loc k' h
      simp only [List.foldl_cons]
      apply ih
      by_cases he : e.2.proxyPid = pid
      · rw [if_pos he]
        exact bpTabInsertOrUpdate_preserves_isSome _ _ h
      · rwa [if_neg he]

theorem busyFold_mem_isSome (pid selfPid : Int) :
    ∀ (bps : List (BreakpointKey × BreakpointData)) (loc : BPTables)
      (e : BreakpointKey × BreakpointData), e ∈ bps → e.2.proxyPid = pid →
      (alookup ((bps.foldl (fun l e =>
        if e.2.proxyPid = pid then
          (bpTabInsertOrUpdate l { e.1 with targetPid := selfPid } e.2).1
        else l) loc)).bps { e.1 with targetPid := selfPid }).isSome = true := by
  intro bps
  induction bps with
  | nil => intro loc e he; simp at he
  | cons e0 rest ih =>
      intro loc e he hpid
      rcases List.mem_cons.mp he with he0 | hrest
      · subst he0
        simp only [List.foldl_cons, if_pos hpid]
        apply busyFold_preserves_isSome
        exact bpTabInsertOrUpdate_isSome_self _ _ _
      · simp only [List.foldl_cons]
        exact ih _ e hrest hpid

theorem cleanupGo_WF (pid : Int) :
    ∀ (l : List (BreakpointKey × BreakpointData)) (t : BPTables), tableWF t →
      tableWF (cleanupGo pid l t) := by
  intro l
  induction l with
  | nil => intro t h; simpa [cleanupGo] using h
  | cons e rest ih =>
      intro t h
      rw [cleanupGo]
      apply ih
      by_cases he : e.2.proxyPid = pid
      · rw [if_pos he]
        exact bpTabDelete_WF h e.1
      · rwa [if_neg he]

theorem getTable_setTable (st : RegistryState) (scope : eBreakpointScope)
    (t : BPTables) : getTable (setTable st scope t) scope = t := by
  cases scope <;> rfl

theorem getTable_WF {st : RegistryState} (h : registryWF st)
    (scope : eBreakpointScope) : tableWF (getTable st scope) := by
  cases scope
  · exact h.2
  · exact h.1

theorem setTable_WF {st : RegistryState} {t : BPTables} (h : registryWF st)
    (scope : eBreakpointScope) (ht : tableWF t) : registryWF (setTable st scope t) := by
  cases scope
  · exact ⟨h.1, ht⟩
  · exact ⟨ht, h.2⟩

theorem busyEntry_keyfix (pid : Int) :
    ∀ e : BreakpointKey × BreakpointData,
      ((if e.2.proxyPid = pid then (e.1, { e.2 with busy := true }) else e) :
        BreakpointKey × BreakpointData).1 = e.1 := by
  intro e
  by_cases he : e.2.proxyPid = pid <;> simp [he]

theorem freeEntry_keyfix (pid : Int) :
    ∀ e : BreakpointKey × BreakpointData,
      ((if e.2.proxyPid = pid then (e.1, { e.2 with busy := false }) else e) :
        BreakpointKey × BreakpointData).1 = e.1 := by
  intro e
  by_cases he : e.2.proxyPid = pid <;> simp [he]

theorem mapKeyfix_WF {t : BPTables}
    {f : BreakpointKey × BreakpointData → BreakpointKey × BreakpointData}
    (hf : ∀ e, (f e).1 = e.1) (h : tableWF t) :
    tableWF ⟨t.bps.map f, t.counts⟩ := by
  refine ⟨?_, ?_⟩
  · show ((t.bps.map f).map Prod.fst).Nodup
    rw [map_keyfix_fst hf]
    exact h.1
  · intro ck
    show alookup t.counts ck = _
    rw [entityCnt_map_keyfix hf]
    exact h.2 ck

theorem reachable_WF {st : RegistryState} (h : Reachable st) : registryWF st := by
  induction h with
  | init =>
      exact ⟨⟨List.nodup_nil, fun ck => rfl⟩, ⟨List.nodup_nil, fun ck => rfl⟩⟩
  | insert st scope key data _ ih =>
      exact setTable_WF ih scope (bpTabInsert_WF (getTable_WF ih scope) key data)
  | insertOrUpdate st scope key data _ ih =>
      exact setTable_WF ih scope (bpTabInsertOrUpdate_WF (getTable_WF ih scope) key data)
  | delete st scope key _ ih =>
      exact setTable_WF ih scope (bpTabDelete_WF (getTable_WF ih scope) key)
  | busy st pid selfPid _ ih =>
      refine ⟨?_, ?_⟩
      · show tableWF ⟨(busyGo pid selfPid st.glob.bps st.loc).1, st.glob.counts⟩
        rw [busyGo_fst]
        exact mapKeyfix_WF (busyEntry_keyfix pid) ih.1
      · show tableWF (busyGo pid selfPid st.glob.bps st.loc).2
        rw [busyGo_snd]
        exact busyFold_WF pid selfPid _ _ ih.2
  | free st pid _ ih =>
      exact ⟨mapKeyfix_WF (freeEntry_keyfix pid) ih.1, ih.2⟩
  | cleanup st pid _ ih =>
      exact ⟨cleanupGo_WF pid st.glob.bps st.glob ih.1, ih.2⟩

theorem entityCnt_pos_iff (bps : List (BreakpointKey × BreakpointData))
    (ck : BreakCountKey) :
    0 < entityCnt bps ck ↔ ∃ e ∈ bps, bcKeyOf e.1 = ck := by
  simp [entityCnt, List.countP_pos_iff]

theorem setTable_getTable (st : RegistryState) (scope : eBreakpointScope) :
    setTable st scope (getTable st scope) = st := by
  cases scope <;> rfl

theorem setTable_setTable (st : RegistryState) (scope : eBreakpointScope)
    (t t' : BPTables) : setTable (setTable st scope t) scope t' = setTable st scope t' := by
  cases scope <;> rfl

/-!
Claim theorems.
-/

/-- Claim C1: breakAtThisLine performs its three searches in the documented
order - global breakpoint targeted at our pid, global breakpoint targeted at
any pid (-1), local breakpoint - taking the first match whose busy flag is
false in the global cases; so when all three kinds exist on the same
(entity, line) with the global ones not busy, a lookup performed as process
myPid returns the process-targeted global breakpoint and never the other
two. -/
theorem C1_breakpoint_precedence (st : RegistryState) (myDb : Nat) (myPid : Int)
    (funcOid : Nat) (line : Int) (d1 d2 d3 : BreakpointData)
    (hpid : myPid ≠ -1)
    (h1 : BreakpointLookup st BP_GLOBAL ⟨myDb, funcOid, line, myPid⟩ = some d1)
    (h1b : d1.busy = false)
    (h2 : BreakpointLookup st BP_GLOBAL ⟨myDb, funcOid, line, -1⟩ = some d2)
    (h2b : d2.busy = false)
    (h3 : BreakpointLookup st BP_LOCAL ⟨myDb, funcOid, line, myPid⟩ = some d3) :
    breakAtThisLine st false myDb myPid funcOid line =
      some (some (⟨myDb, funcOid, line, myPid⟩, d1), BP_GLOBAL) := by
  simp [breakAtThisLine, h1, h1b]

/-- Witness for C1 at a concrete registry: the process-targeted global
breakpoint owned by proxy 55 wins over the any-process global and the local
one. -/
theorem C1_witness :
    breakAtThisLine stW false 7 101 42 10 = some (some (kSelfW, d1W), BP_GLOBAL) :=
  C1_breakpoint_precedence stW 7 101 42 10 d1W d2W d3W (by decide) (by decide)
    (by decide) (by decide) (by decide) (by decide)

/-- Claim C2: for every scope and key, a successful insert followed
immediately by lookup with the same key returns the just-inserted data (the
stored entry, whose busy flag insert clears), and a second insert with the
same key before any delete returns false and leaves the registry - hence
the originally stored data - unchanged. -/
theorem C2_insert_then_lookup (st : RegistryState) (scope : eBreakpointScope)
    (key : BreakpointKey) (data data2 : BreakpointData)
    (h : BreakpointLookup st scope key = none) :
    (BreakpointInsert st scope key data).2 = true ∧
    BreakpointLookup (BreakpointInsert st scope key data).1 scope key =
      some { data with busy := false } ∧
    (BreakpointInsert (BreakpointInsert st scope key data).1 scope key data2).2 = false ∧
    (BreakpointInsert (BreakpointInsert st scope key data).1 scope key data2).1 =
      (BreakpointInsert st scope key data).1 := by
  have h' : alookup (getTable st scope).bps key = none := h
  have hstep : bpTabInsert (getTable st scope) key data =
      (⟨(key, { data with busy := false }) :: (getTable st scope).bps,
        breakCountInsert (getTable st scope).counts (bcKeyOf key)⟩, true) := by
    rw [bpTabInsert, h']
  have hlook2 : alookup ((key, { data with busy := false }) ::
      (getTable st scope).bps) key = some { data with busy := false } := by
    simp [alookup]
  refine ⟨?_, ?_, ?_, ?_⟩
  · show (bpTabInsert (getTable st scope) key data).2 = true
    rw [hstep]
  · show bpTabLookup
      (getTable (setTable st scope (bpTabInsert (getTable st scope) key data).1) scope)
      key = some { data with busy := false }
    rw [getTable_setTable, hstep, bpTabLookup]
    exact hlook2
  · show (bpTabInsert (getTable (setTable st scope
      (bpTabInsert (getTable st scope) key data).1) scope) key data2).2 = false
    rw [getTable_setTable, hstep, bpTabInsert, hlook2]
  · show setTable (setTable st scope (bpTabInsert (getTable st scope) key data).1)
      scope (bpTabInsert (getTable (setTable st scope
        (bpTabInsert (getTable st scope) key data).1) scope) key data2).1 =
      setTable st scope (bpTabInsert (getTable st scope) key data).1
    rw [getTable_setTable, hstep, bpTabInsert, hlook2, setTable_setTable]

/-- Witness for C2 at the empty registry. -/
theorem C2_witness :
    (BreakpointInsert emptyRegistry BP_GLOBAL kSelfW d1W).2 = true ∧
    BreakpointLookup (BreakpointInsert emptyRegistry BP_GLOBAL kSelfW d1W).1
      BP_GLOBAL kSelfW = some { d1W with busy := false } ∧
    (BreakpointInsert (BreakpointInsert emptyRegistry BP_GLOBAL kSelfW d1W).1
      BP_GLOBAL kSelfW d2W).2 = false ∧
    (BreakpointInsert (BreakpointInsert emptyRegistry BP_GLOBAL kSelfW d1W).1
      BP_GLOBAL kSelfW d2W).1 =
      (BreakpointInsert emptyRegistry BP_GLOBAL kSelfW d1W).1 :=
  C2_insert_then_lookup emptyRegistry BP_GLOBAL kSelfW d1W d2W (by decide)

/-- Claim C10: an entry newly created by BreakpointInsert, or by
BreakpointInsertOrUpdate when the key was not present, is stored with
busy = false regardless of the busy value in the supplied data; only the
update path of BreakpointInsertOrUpdate copies the supplied busy flag
verbatim, so a breakpoint can become busy only after creation. -/
theorem C10_created_not_busy (st : RegistryState) (scope : eBreakpointScope)
    (key : BreakpointKey) (data d0 : BreakpointData) :
    (BreakpointLookup st scope key = none →
      BreakpointLookup (BreakpointInsert st scope key data).1 scope key =
        some { data with busy := false } ∧
      BreakpointLookup (BreakpointInsertOrUpdate st scope key data).1 scope key =
        some { data with busy := false }) ∧
    (BreakpointLookup st scope key = some d0 →
      BreakpointLookup (BreakpointInsertOrUpdate st scope key data).1 scope key =
        some data) := by
  constructor
  · intro h
    have h' : alookup (getTable st scope).bps key = none := h
    constructor
    · show bpTabLookup (getTable (setTable st scope
        (bpTabInsert (getTable st scope) key data).1) scope) key = _
      rw [getTable_setTable, bpTabInsert, h', bpTabLookup]
      simp [alookup]
    · show bpTabLookup (getTable (setTable st scope
        (bpTabInsertOrUpdate (getTable st scope) key data).1) scope) key = _
      rw [getTable_setTable, bpTabInsertOrUpdate, h', bpTabLookup]
      simp [alookup]
  · intro h
    have h' : alookup (getTable st scope).bps key = some d0 := h
    show bpTabLookup (getTable (setTable st scope
      (bpTabInsertOrUpdate (getTable st scope) key data).1) scope) key = _
    rw [getTable_setTable, bpTabInsertOrUpdate, h', bpTabLookup]
    exact alookup_aupdate_self data h'

/-- Witness for C10: inserting data with busy = true stores busy = false on
both creation paths; the update path of BreakpointInsertOrUpdate copies
busy = true verbatim. -/
theorem C10_witness :
    (BreakpointLookup (BreakpointInsert emptyRegistry BP_GLOBAL kSelfW
        ⟨true, true, 1, 2⟩).1 BP_GLOBAL kSelfW = some ⟨true, false, 1, 2⟩ ∧
     BreakpointLookup (BreakpointInsertOrUpdate emptyRegistry BP_GLOBAL kSelfW
        ⟨true, true, 1, 2⟩).1 BP_GLOBAL kSelfW = some ⟨true, false, 1, 2⟩) ∧
    BreakpointLookup (BreakpointInsertOrUpdate stW BP_GLOBAL kSelfW
        ⟨true, true, 1, 2⟩).1 BP_GLOBAL kSelfW = some ⟨true, true, 1, 2⟩ :=
  ⟨(C10_created_not_busy emptyRegistry BP_GLOBAL kSelfW ⟨true, true, 1, 2⟩ d1W).1
      (by decide),
   (C10_created_not_busy stW BP_GLOBAL kSelfW ⟨true, true, 1, 2⟩ d1W).2
      (by decide)⟩

/-- Claim C3: in every state reachable by any sequence of the breakpoint
mutators, and for each scope, a BreakCount entry for (databaseId,
functionId) is present with count > 0 exactly when at least one breakpoint
with that prefix exists in that scope's table - so BreakpointOnId answers
true exactly then - and a present entry always has positive count (the
entry is removed when its count reaches zero). -/
theorem C3_breakcount_invariant (st : RegistryState) (h : Reachable st)
    (scope : eBreakpointScope) (db fn : Nat) :
    ((∃ c : Int, alookup (getTable st scope).counts ⟨db, fn⟩ = some c ∧ 0 < c) ↔
      ∃ e ∈ (getTable st scope).bps, e.1.databaseId = db ∧ e.1.functionId = fn) ∧
    (BreakpointOnId st scope db fn = true ↔
      ∃ e ∈ (getTable st scope).bps, e.1.databaseId = db ∧ e.1.functionId = fn) ∧
    (∀ c : Int, alookup (getTable st scope).counts ⟨db, fn⟩ = some c → 0 < c) := by
  have hwf := getTable_WF (reachable_WF h) scope
  have hinv := hwf.2 ⟨db, fn⟩
  have key_iff : ∀ e : BreakpointKey × BreakpointData,
      bcKeyOf e.1 = (⟨db, fn⟩ : BreakCountKey) ↔
        (e.1.databaseId = db ∧ e.1.functionId = fn) := by
    intro e
    simp [bcKeyOf, BreakCountKey.mk.injEq]
  have hmem : (∃ e ∈ (getTable st scope).bps,
      e.1.databaseId = db ∧ e.1.functionId = fn) ↔
      0 < entityCnt (getTable st scope).bps ⟨db, fn⟩ := by
    rw [entityCnt_pos_iff]
    constructor
    · rintro ⟨e, he, hek⟩
      exact ⟨e, he, (key_iff e).mpr hek⟩
    · rintro ⟨e, he, hek⟩
      exact ⟨e, he, (key_iff e).mp hek⟩
  refine ⟨?_, ?_, ?_⟩
  · constructor
    · rintro ⟨c, hc, _⟩
      rw [hinv] at hc
      by_cases hz : entityCnt (getTable st scope).bps ⟨db, fn⟩ = 0
      · rw [if_pos hz] at hc
        exact Option.noConfusion hc
      · exact hmem.mpr (Nat.pos_of_ne_zero hz)
    · intro hx
      have hpos := hmem.mp hx
      refine ⟨(entityCnt (getTable st scope).bps ⟨db, fn⟩ : Int), ?_, by
        exact_mod_cast hpos⟩
      rw [hinv, if_neg (by omega)]
  · constructor
    · intro hb
      rw [BreakpointOnId, breakCountLookup] at hb
      by_cases hz : entityCnt (getTable st scope).bps ⟨db, fn⟩ = 0
      · have hn : alookup (getTable st scope).counts ⟨db, fn⟩ = none := by
          rw [hinv, if_pos hz]
        rw [hn] at hb
        exact Bool.noConfusion hb
      · exact hmem.mpr (Nat.pos_of_ne_zero hz)
    · intro hx
      have hpos := hmem.mp hx
      have hs : alookup (getTable st scope).counts ⟨db, fn⟩ =
          some (entityCnt (getTable st scope).bps ⟨db, fn⟩ : Int) := by
        rw [hinv, if_neg (by omega)]
      rw [BreakpointOnId, breakCountLookup, hs]
  · intro c hc
    rw [hinv] at hc
    by_cases hz : entityCnt (getTable st scope).bps ⟨db, fn⟩ = 0
    · rw [if_pos hz] at hc
      exact Option.noConfusion hc
    · rw [if_neg hz] at hc
      have := Option.some.inj hc
      have hpos : 0 < entityCnt (getTable st scope).bps ⟨db, fn⟩ :=
        Nat.pos_of_ne_zero hz
      omega

/-- Witness for C3: insert breakpoints on entity (7, 42) at lines 10 and 11,
then delete the line-10 one; the BreakCount entry is still present with a
positive count and BreakpointOnId still answers true, matching the one
remaining breakpoint. -/
theorem C3_witness :
    ((∃ c : Int, alookup (getTable stC3W BP_GLOBAL).counts ⟨7, 42⟩ = some c ∧ 0 < c) ↔
      ∃ e ∈ (getTable stC3W BP_GLOBAL).bps,
        e.1.databaseId = 7 ∧ e.1.functionId = 42) ∧
    (BreakpointOnId stC3W BP_GLOBAL 7 42 = true ↔
      ∃ e ∈ (getTable stC3W BP_GLOBAL).bps,
        e.1.databaseId = 7 ∧ e.1.functionId = 42) ∧
    (∀ c : Int, alookup (getTable stC3W BP_GLOBAL).counts ⟨7, 42⟩ = some c → 0 < c) :=
  C3_breakcount_invariant stC3W
    (Reachable.delete _ BP_GLOBAL kSelfW
      (Reachable.insert _ BP_GLOBAL kLine11W d1W
        (Reachable.insert _ BP_GLOBAL kSelfW d1W Reachable.init)))
    BP_GLOBAL 7 42

/-- Claim C4: BreakpointBusySession p sets busy = true on every GLOBAL entry
owned by proxy p (leaving the others unchanged) and ensures an equal-keyed
copy of each such entry - with targetPid retargeted at the calling process -
exists in the LOCAL table; BreakpointFreeSession p merely clears busy on all
of p's GLOBAL entries: the LOCAL table is untouched, nothing is deleted (the
key list is preserved), and other entries are unchanged. -/
theorem C4_busy_and_free (st : RegistryState) (p selfPid : Int) :
    (∀ k d, alookup st.glob.bps k = some d → d.proxyPid = p →
      alookup (BreakpointBusySession st p selfPid).glob.bps k =
        some { d with busy := true }) ∧
    (∀ k d, alookup st.glob.bps k = some d → d.proxyPid ≠ p →
      alookup (BreakpointBusySession st p selfPid).glob.bps k = some d) ∧
    (∀ e ∈ st.glob.bps, e.2.proxyPid = p →
      (alookup (BreakpointBusySession st p selfPid).loc.bps
        { e.1 with targetPid := selfPid }).isSome = true) ∧
    ((BreakpointFreeSession st p).loc = st.loc) ∧
    (∀ k d, alookup st.glob.bps k = some d →
      alookup (BreakpointFreeSession st p).glob.bps k =
        some (if d.proxyPid = p then { d with busy := false } else d)) ∧
    ((BreakpointFreeSession st p).glob.bps.map Prod.fst =
      st.glob.bps.map Prod.fst) := by
  have hglob : (BreakpointBusySession st p selfPid).glob.bps =
      st.glob.bps.map (fun e =>
        if e.2.proxyPid = p then (e.1, { e.2 with busy := true }) else e) :=
    busyGo_fst p selfPid st.glob.bps st.loc
  have hloc : (BreakpointBusySession st p selfPid).loc =
      st.glob.bps.foldl (fun l e =>
        if e.2.proxyPid = p then
          (bpTabInsertOrUpdate l { e.1 with targetPid := selfPid } e.2).1
        else l) st.loc :=
    busyGo_snd p selfPid st.glob.bps st.loc
  refine ⟨?_, ?_, ?_, rfl, ?_, map_keyfix_fst (freeEntry_keyfix p) st.glob.bps⟩
  · intro k d hk hd
    rw [hglob, alookup_map_keyfix (busyEntry_keyfix p), hk]
    simp [hd]
  · intro k d hk hd
    rw [hglob, alookup_map_keyfix (busyEntry_keyfix p), hk]
    simp [hd]
  · intro e he hp
    rw [hloc]
    exact busyFold_mem_isSome p selfPid st.glob.bps st.loc e he hp
  · intro k d hk
    show alookup (st.glob.bps.map (fun e =>
      if e.2.proxyPid = p then (e.1, { e.2 with busy := false }) else e)) k = _
    rw [alookup_map_keyfix (freeEntry_keyfix p), hk]
    by_cases hd : d.proxyPid = p <;> simp [hd]

/-- Witness for C4 at the concrete registry stW, with proxy pid 55 and
calling process 101. -/
theorem C4_witness :
    alookup (BreakpointBusySession stW 55 101).glob.bps kSelfW =
      some { d1W with busy := true } ∧
    (alookup (BreakpointBusySession stW 55 101).loc.bps
      { kSelfW with targetPid := 101 }).isSome = true ∧
    (BreakpointFreeSession stW 55).loc = stW.loc ∧
    alookup (BreakpointFreeSession stW 55).glob.bps kSelfW =
      some (if d1W.proxyPid = 55 then { d1W with busy := false } else d1W) ∧
    (BreakpointFreeSession stW 55).glob.bps.map Prod.fst =
      stW.glob.bps.map Prod.fst :=
  ⟨(C4_busy_and_free stW 55 101).1 kSelfW d1W (by decide) (by decide),
   (C4_busy_and_free stW 55 101).2.2.1 (kSelfW, d1W) (by decide) (by decide),
   (C4_busy_and_free stW 55 101).2.2.2.1,
   (C4_busy_and_free stW 55 101).2.2.2.2.1 kSelfW d1W (by decide),
   (C4_busy_and_free stW 55 101).2.2.2.2.2⟩

/-- Claim C5: encoding any byte string with the wire codec (4-byte
big-endian length, then the raw bytes, no terminator) and decoding it on a
paired stream yields exactly the original bytes, with length 0 decoded as
the absent-string (NULL) sentinel; the rest of the stream is untouched. -/
theorem C5_wire_roundtrip (s rest : List Nat) (h : s.length < 2 ^ 32) :
    getNString (sendString s ++ rest) =
      some ((if s.length = 0 then none else some s), rest) := by
  have hmod : s.length % 2 ^ 32 = s.length := Nat.mod_eq_of_lt h
  have hdec : ((s.length / 2 ^ 24 % 256 * 256 + s.length / 2 ^ 16 % 256) * 256 +
      s.length / 2 ^ 8 % 256) * 256 + s.length % 256 = s.length := by omega
  rw [sendString, sendUInt32, writeBE32, hmod]
  simp only [List.cons_append, List.nil_append, getNString, readUInt32, hdec]
  by_cases hz : s.length = 0
  · have hs : s = [] := List.length_eq_zero.mp hz
    subst hs
    simp
  · rw [if_neg hz, if_neg hz, if_pos (by simp : s.length ≤ (s ++ rest).length)]
    rw [List.take_left, List.drop_left]

/-- Witness for C5: a zero-length string decodes to the NULL sentinel, and a
3-byte string round-trips exactly, both leaving the stream remainder
intact. -/
theorem C5_witness :
    getNString (sendString [] ++ [9]) = some (none, [9]) ∧
    getNString (sendString [1, 2, 3] ++ [7]) = some (some [1, 2, 3], [7]) :=
  ⟨C5_wire_roundtrip [] [9] (by norm_num), C5_wire_roundtrip [1, 2, 3] [7] (by norm_num)⟩

/-- Claim C6 is refuted by the code on the EINTR path: readn, asked for 1
byte with recv results [-1 under EINTR, 1 byte, 1 byte], skips
handle_socket_error but still executes bytesRemaining -= -1 and
buffer += -1, so it finishes only after consuming two 1-byte reads, the
first written at offset -1 (before the destination buffer); a single EINTR
leaves bytesRemaining at 2 instead of 1 (second conjunct); and writen calls
handle_socket_error for ANY non-positive send return, and
handle_socket_error aborts on EINTR, so an interrupted send becomes
connection-lost instead of being retried (last two conjuncts). -/
theorem C6_eintr_mishandled :
    readn 1 [RecvResult.errored SockErr.eintr, RecvResult.got 1, RecvResult.got 1] =
      ReadnOutcome.done [(-1, 1), (0, 1)] [] ∧
    readnLoop 1 0 [] [RecvResult.errored SockErr.eintr] =
      ReadnOutcome.starved 2 [] ∧
    writen 1 [SendResult.errored SockErr.eintr] = WritenOutcome.lost ∧
    handleSocketErrorAborts SockErr.eintr = true := by
  refine ⟨?_, ?_, rfl, rfl⟩ <;> decide

theorem findConnectingIdx_some {pool : SlotPool} {rp : Int} {r : Nat × TargetSlot}
    (h : findConnectingIdx pool rp = some r) :
    r.2 ∈ pool ∧ r.2.status = DBGCOMM_CONNECTING_TO_PROXY ∧ r.2.port = rp := by
  induction pool generalizing r with
  | nil => simp [findConnectingIdx] at h
  | cons s rest ih =>
      rw [findConnectingIdx] at h
      by_cases hs : s.status = DBGCOMM_CONNECTING_TO_PROXY ∧ s.port = rp
      · rw [if_pos hs] at h
        obtain rfl := Option.some.inj h
        exact ⟨List.mem_cons_self s rest, hs.1, hs.2⟩
      · rw [if_neg hs] at h
        rcases hfound : findConnectingIdx rest rp with _ | r0
        · rw [hfound] at h
          exact Option.noConfusion h
        · rw [hfound] at h
          obtain rfl := Option.some.inj h
          obtain ⟨hm, h1, h2⟩ := ih hfound
          exact ⟨List.mem_cons_of_mem s hm, h1, h2⟩

theorem findConnectingIdx_none {pool : SlotPool} {rp : Int}
    (h : findConnectingIdx pool rp = none) :
    ∀ s ∈ pool, ¬(s.status = DBGCOMM_CONNECTING_TO_PROXY ∧ s.port = rp) := by
  induction pool with
  | nil => intro s hs; simp at hs
  | cons s0 rest ih =>
      rw [findConnectingIdx] at h
      by_cases hs : s0.status = DBGCOMM_CONNECTING_TO_PROXY ∧ s0.port = rp
      · rw [if_pos hs] at h
        exact Option.noConfusion h
      · rw [if_neg hs] at h
        intro s hsm
        rcases List.mem_cons.mp hsm with rfl | hm
        · exact hs
        · rcases hfound : findConnectingIdx rest rp with _ | r0
          · exact ih hfound s hm
          · rw [hfound] at h
            exact Option.noConfusion h

/-- Claim C7: the rendezvous accept loops never return an unauthenticated
connection.  The listener side of the target returns a connection only when
its slot snapshot shows status DBGCOMM_PROXY_CONNECTING and the recorded
port equals the connection source port, and when it returns none every
accepted connection failed that check (was closed, listening resumed); the
accept loop of the proxy returns a pid only taken from some slot with
status DBGCOMM_CONNECTING_TO_PROXY recording the connection source port,
and returns none only when no snapshot had such a slot. -/
theorem C7_accept_authentication (evs1 : List (TargetSlot × Int))
    (evs2 : List (SlotPool × Int)) :
    (∀ snap rp, listenAuthLoop evs1 = some (snap, rp) →
      snap.status = DBGCOMM_PROXY_CONNECTING ∧ snap.port = rp) ∧
    (listenAuthLoop evs1 = none →
      ∀ e ∈ evs1, ¬(e.1.status = DBGCOMM_PROXY_CONNECTING ∧ e.1.port = e.2)) ∧
    (∀ pid, acceptTargetLoop evs2 = some pid →
      ∃ e ∈ evs2, ∃ s ∈ e.1,
        s.status = DBGCOMM_CONNECTING_TO_PROXY ∧ s.port = e.2 ∧ s.pid = pid) ∧
    (acceptTargetLoop evs2 = none →
      ∀ e ∈ evs2, ∀ s ∈ e.1,
        ¬(s.status = DBGCOMM_CONNECTING_TO_PROXY ∧ s.port = e.2)) := by
  refine ⟨?_, ?_, ?_, ?_⟩
  · intro snap rp h
    induction evs1 with
    | nil => simp [listenAuthLoop] at h
    | cons e rest ih =>
        rw [listenAuthLoop] at h
        by_cases he : e.1.status = DBGCOMM_PROXY_CONNECTING ∧ e.1.port = e.2
        · rw [if_pos he] at h
          obtain ⟨h1, h2⟩ := Prod.mk.injEq .. ▸ Option.some.inj h
          subst h1
          subst h2
          exact he
        · rw [if_neg he] at h
          exact ih h
  · intro h e he
    induction evs1 with
    | nil => simp at he
    | cons e0 rest ih =>
        rw [listenAuthLoop] at h
        by_cases he0 : e0.1.status = DBGCOMM_PROXY_CONNECTING ∧ e0.1.port = e0.2
        · rw [if_pos he0] at h
          exact Option.noConfusion h
        · rw [if_neg he0] at h
          rcases List.mem_cons.mp he with rfl | hm
          · exact he0
          · exact ih h hm
  · intro pid h
    induction evs2 with
    | nil => simp [acceptTargetLoop] at h
    | cons e rest ih =>
        rw [acceptTargetLoop] at h
        rcases hfound : findConnectingIdx e.1 e.2 with _ | r
        · rw [hfound] at h
          obtain ⟨e', he', hrest⟩ := ih h
          exact ⟨e', List.mem_cons_of_mem e he', hrest⟩
        · rw [hfound] at h
          obtain ⟨hm, h1, h2⟩ := findConnectingIdx_some hfound
          exact ⟨e, List.mem_cons_self e rest,
            r.2, hm, h1, h2, Option.some.inj h⟩
  · intro h e he s hs
    induction evs2 with
    | nil => simp at he
    | cons e0 rest ih =>
        rw [acceptTargetLoop] at h
        rcases hfound : findConnectingIdx e0.1 e0.2 with _ | r
        · rw [hfound] at h
          rcases List.mem_cons.mp he with rfl | hm
          · exact findConnectingIdx_none hfound s hs
          · exact ih h hm
        · rw [hfound] at h
          exact Option.noConfusion h

/-- Witness for C7: a decoy connection (slot still LISTENING_FOR_PROXY) is
rejected and the authenticated one from source port 6666 is returned on the
target side; on the proxy side the decoy from an unregistered port is
rejected and the connection matching the registered slot yields pid 101. -/
theorem C7_witness :
    listenAuthLoop evListenW =
      some (⟨5, DBGCOMM_PROXY_CONNECTING, 101, 6666⟩, 6666) ∧
    ((⟨5, DBGCOMM_PROXY_CONNECTING, 101, 6666⟩ : TargetSlot).status =
        DBGCOMM_PROXY_CONNECTING ∧
      (⟨5, DBGCOMM_PROXY_CONNECTING, 101, 6666⟩ : TargetSlot).port = 6666) ∧
    acceptTargetLoop evAcceptW = some 101 ∧
    (∃ e ∈ evAcceptW, ∃ s ∈ e.1,
      s.status = DBGCOMM_CONNECTING_TO_PROXY ∧ s.port = e.2 ∧ s.pid = 101) :=
  ⟨by decide,
   (C7_accept_authentication evListenW evAcceptW).1
     ⟨5, DBGCOMM_PROXY_CONNECTING, 101, 6666⟩ 6666 (by decide),
   by decide,
   (C7_accept_authentication evListenW evAcceptW).2.2.1 101 (by decide)⟩

theorem slotAt?_modifySlot_self :
    ∀ (pool : SlotPool) (i : Nat) (f : TargetSlot → TargetSlot),
      slotAt? (modifySlot pool i f) i = (slotAt? pool i).map f := by
  intro pool
  induction pool with
  | nil => intro i f; cases i <;> simp [modifySlot, slotAt?]
  | cons s rest ih =>
      intro i f
      cases i with
      | zero => simp [modifySlot, slotAt?]
      | succ n => simpa [modifySlot, slotAt?] using ih n f

theorem findFreeTargetSlot_sound {pool : SlotPool} {my : Int} {i : Nat}
    (h : findFreeTargetSlot pool my = some i) :
    ∃ s, slotAt? pool i = some s ∧
      (s.backendid = InvalidBackendId ∨ s.backendid = my) := by
  induction pool generalizing i with
  | nil => simp [findFreeTargetSlot] at h
  | cons s rest ih =>
      rw [findFreeTargetSlot] at h
      by_cases hs : s.backendid = InvalidBackendId ∨ s.backendid = my
      · rw [if_pos hs] at h
        obtain rfl := Option.some.inj h
        exact ⟨s, rfl, hs⟩
      · rw [if_neg hs] at h
        rcases hf : findFreeTargetSlot rest my with _ | j
        · rw [hf] at h
          exact Option.noConfusion h
        · rw [hf] at h
          obtain rfl := Option.some.inj h
          obtain ⟨s0, hs0, hp⟩ := ih hf
          exact ⟨s0, by simpa [slotAt?] using hs0, hp⟩

theorem findTargetSlot_sound {pool : SlotPool} {b : Int} {i : Nat}
    (h : findTargetSlot pool b = some i) :
    ∃ s, slotAt? pool i = some s ∧ s.backendid = b := by
  induction pool generalizing i with
  | nil => simp [findTargetSlot] at h
  | cons s rest ih =>
      rw [findTargetSlot] at h
      by_cases hs : s.backendid = b
      · rw [if_pos hs] at h
        obtain rfl := Option.some.inj h
        exact ⟨s, rfl, hs⟩
      · rw [if_neg hs] at h
        rcases hf : findTargetSlot rest b with _ | j
        · rw [hf] at h
          exact Option.noConfusion h
        · rw [hf] at h
          obtain rfl := Option.some.inj h
          obtain ⟨s0, hs0, hp⟩ := ih hf
          exact ⟨s0, by simpa [slotAt?] using hs0, hp⟩

theorem findConnectingIdx_slotAt {pool : SlotPool} {rp : Int} {r : Nat × TargetSlot}
    (h : findConnectingIdx pool rp = some r) : slotAt? pool r.1 = some r.2 := by
  induction pool generalizing r with
  | nil => simp [findConnectingIdx] at h
  | cons s rest ih =>
      rw [findConnectingIdx] at h
      by_cases hs : s.status = DBGCOMM_CONNECTING_TO_PROXY ∧ s.port = rp
      · rw [if_pos hs] at h
        obtain rfl := Option.some.inj h
        rfl
      · rw [if_neg hs] at h
        rcases hf : findConnectingIdx rest rp with _ | r0
        · rw [hf] at h
          exact Option.noConfusion h
        · rw [hf] at h
          obtain rfl := Option.some.inj h
          simpa [slotAt?] using ih hf

/-- Counterexample to claim C8 as stated: target backend 5 (pid 101) is
listening (slot LISTENING_FOR_PROXY, port 5432); the proxy runs
dbgcomm_connect_to_target, flips the slot to PROXY_CONNECTING with its
source port 6001, and its connect() fails - the attempt completes with an
error, yet the slot is left in PROXY_CONNECTING, not reset to IDLE. -/
theorem C8_counterexample :
    (dbgcomm_connect_to_target poolListenW 5 6001 false).1 =
      [⟨5, DBGCOMM_PROXY_CONNECTING, 101, 6001⟩] ∧
    (dbgcomm_connect_to_target poolListenW 5 6001 false).2 = false ∧
    ∀ s ∈ (dbgcomm_connect_to_target poolListenW 5 6001 false).1,
      ¬s.status = DBGCOMM_IDLE := by
  refine ⟨by decide, by decide, by decide⟩

/-- Claim C8 amended: a TargetSlot is reset to IDLE by whichever side
completes the handshake on the normal completion paths - by the acceptor on
either successful accept path, and by the dialing target itself when its
own dial-out connect fails - but when the proxy's connect() to a listening
target fails, dbgcomm_connect_to_target errors out leaving the slot in
PROXY_CONNECTING (the XXX comment in the source). -/
theorem C8_amended_slot_reset (pool : SlotPool) (my myPid lp b rp : Int)
    (i : Nat) (s : TargetSlot) :
    (findFreeTargetSlot pool my = some i →
      ∃ s', slotAt? (dbgcomm_connect_to_proxy pool my myPid lp false).1 i = some s' ∧
        s'.status = DBGCOMM_IDLE) ∧
    (findConnectingIdx pool rp = some (i, s) →
      ∃ s', slotAt? (dbgcomm_accept_target_one pool rp).1 i = some s' ∧
        s'.status = DBGCOMM_IDLE) ∧
    (slotAt? pool i = some s → s.status = DBGCOMM_PROXY_CONNECTING → s.port = rp →
      ∃ s', slotAt? (dbgcomm_listen_for_proxy_accept_one pool i rp).1 i = some s' ∧
        s'.status = DBGCOMM_IDLE ∧ s'.backendid = InvalidBackendId) ∧
    (findTargetSlot pool b = some i → slotAt? pool i = some s →
      s.status = DBGCOMM_LISTENING_FOR_PROXY →
      ∃ s', slotAt? (dbgcomm_connect_to_target pool b lp false).1 i = some s' ∧
        s'.status = DBGCOMM_PROXY_CONNECTING) := by
  refine ⟨?_, ?_, ?_, ?_⟩
  · intro h
    obtain ⟨s0, hs0, _⟩ := findFreeTargetSlot_sound h
    rw [dbgcomm_connect_to_proxy, h]
    simp only [Bool.false_eq_true, if_false]
    rw [slotAt?_modifySlot_self, slotAt?_modifySlot_self, hs0]
    exact ⟨_, rfl, rfl⟩
  · intro h
    have hs0 := findConnectingIdx_slotAt h
    rw [dbgcomm_accept_target_one, h]
    rw [slotAt?_modifySlot_self]
    rw [hs0]
    exact ⟨_, rfl, rfl⟩
  · intro hs0 hst hp
    simp only [dbgcomm_listen_for_proxy_accept_one, hs0]
    rw [if_pos ⟨hst, hp⟩]
    rw [slotAt?_modifySlot_self, hs0]
    exact ⟨_, rfl, rfl, rfl⟩
  · intro h hs0 hst
    simp only [dbgcomm_connect_to_target, h, hs0]
    rw [if_pos hst]
    rw [slotAt?_modifySlot_self, hs0]
    exact ⟨_, rfl, rfl⟩

/-- Witness for the amended C8 on concrete pools: a failed dial-out resets
slot 0 to IDLE; a successful proxy-side accept resets it; a successful
target-side accept resets it; and a failed proxy connect leaves it in
PROXY_CONNECTING. -/
theorem C8_witness :
    (∃ s', slotAt? (dbgcomm_connect_to_proxy poolW 5 101 7777 false).1 0 =
        some s' ∧ s'.status = DBGCOMM_IDLE) ∧
    (∃ s', slotAt? (dbgcomm_accept_target_one
        [⟨5, DBGCOMM_CONNECTING_TO_PROXY, 101, 6666⟩] 6666).1 0 = some s' ∧
      s'.status = DBGCOMM_IDLE) ∧
    (∃ s', slotAt? (dbgcomm_listen_for_proxy_accept_one
        [⟨5, DBGCOMM_PROXY_CONNECTING, 101, 6666⟩] 0 6666).1 0 = some s' ∧
      s'.status = DBGCOMM_IDLE ∧ s'.backendid = InvalidBackendId) ∧
    (∃ s', slotAt? (dbgcomm_connect_to_target poolListenW 5 6001 false).1 0 =
        some s' ∧ s'.status = DBGCOMM_PROXY_CONNECTING) :=
  ⟨(C8_amended_slot_reset poolW 5 101 7777 0 0 0 ⟨0, DBGCOMM_IDLE, 0, 0⟩).1
      (by decide),
   (C8_amended_slot_reset [⟨5, DBGCOMM_CONNECTING_TO_PROXY, 101, 6666⟩]
      0 0 0 0 6666 0 ⟨5, DBGCOMM_CONNECTING_TO_PROXY, 101, 6666⟩).2.1 (by decide),
   (C8_amended_slot_reset [⟨5, DBGCOMM_PROXY_CONNECTING, 101, 6666⟩]
      0 0 0 0 6666 0 ⟨5, DBGCOMM_PROXY_CONNECTING, 101, 6666⟩).2.2.1
      (by decide) (by decide) (by decide),
   (C8_amended_slot_reset poolListenW 0 0 6001 5 0 0
      ⟨5, DBGCOMM_LISTENING_FOR_PROXY, 101, 5432⟩).2.2.2
      (by decide) (by decide) (by decide)⟩

theorem strchrIdx_append_not_mem {l1 : List Char} {c : Char} (h : c ∉ l1)
    (l2 : List Char) :
    strchrIdx (l1 ++ l2) c = (strchrIdx l2 c).map (· + l1.length) := by
  induction l1 with
  | nil =>
      rcases hx : strchrIdx l2 c with _ | i <;> simp [hx]
  | cons x xs ih =>
      have hxc : ¬x = c := fun hxc => h (hxc ▸ List.mem_cons_self x xs)
      have hmem : c ∉ xs := fun hm => h (List.mem_cons_of_mem x hm)
      have hcons : strchrIdx (x :: (xs ++ l2)) c =
          (strchrIdx (xs ++ l2) c).map (· + 1) := by
        simp [strchrIdx, hxc]
      rw [List.cons_append, hcons, ih hmem]
      rcases hy : strchrIdx l2 c with _ | j
      · simp
      · simp [Nat.add_assoc]

/-- Claim C9: for every deposit command with a well-formed
name.line=value argument naming an in-scope variable, the value is first
evaluated as an expression (SELECT value) inside a subtransaction; on
success the subtransaction is released and t is replied; on failure it is
rolled back and the same value is retried single-quoted as a string literal
(SELECT quoted-value), replying t on success and f only when the quoted
retry also fails. -/
theorem C9_deposit_two_phase (name line value : List Char)
    (find_datum_by_name : List Char → Int → Bool) (assign_expr : List Char → Bool)
    (hn1 : '.' ∉ name) (hn2 : '=' ∉ name) (hl1 : '.' ∉ line) (hl2 : '=' ∉ line)
    (hfind : find_datum_by_name name
      (if line.length = 0 then -1 else atoi line) = true) :
    (assign_expr ("SELECT ".data ++ value) = true →
      do_deposit (['d', ':'] ++ name ++ ['.'] ++ line ++ ['='] ++ value)
          find_datum_by_name assign_expr =
        [DepositEv.beginSub, DepositEv.tryAssign ("SELECT ".data ++ value),
         DepositEv.releaseSub, DepositEv.send 't']) ∧
    (assign_expr ("SELECT ".data ++ value) = false →
      assign_expr ("SELECT ".data ++ [sq] ++ value ++ [sq]) = true →
      do_deposit (['d', ':'] ++ name ++ ['.'] ++ line ++ ['='] ++ value)
          find_datum_by_name assign_expr =
        [DepositEv.beginSub, DepositEv.tryAssign ("SELECT ".data ++ value),
         DepositEv.rollbackSub, DepositEv.beginSub,
         DepositEv.tryAssign ("SELECT ".data ++ [sq] ++ value ++ [sq]),
         DepositEv.releaseSub, DepositEv.send 't']) ∧
    (assign_expr ("SELECT ".data ++ value) = false →
      assign_expr ("SELECT ".data ++ [sq] ++ value ++ [sq]) = false →
      do_deposit (['d', ':'] ++ name ++ ['.'] ++ line ++ ['='] ++ value)
          find_datum_by_name assign_expr =
        [DepositEv.beginSub, DepositEv.tryAssign ("SELECT ".data ++ value),
         DepositEv.rollbackSub, DepositEv.beginSub,
         DepositEv.tryAssign ("SELECT ".data ++ [sq] ++ value ++ [sq]),
         DepositEv.rollbackSub, DepositEv.send 'f']) := by
  have hvar : (['d', ':'] ++ name ++ ['.'] ++ line ++ ['='] ++ value).drop 2 =
      name ++ '.' :: (line ++ '=' :: value) := by
    simp
  have h1 : strchrIdx ('=' :: value) '=' = some 0 := by
    simp [strchrIdx]
  have h2 : strchrIdx (line ++ '=' :: value) '=' = some line.length := by
    rw [strchrIdx_append_not_mem hl2, h1]
    simp
  have h3 : strchrIdx ('.' :: (line ++ '=' :: value)) '=' = some (line.length + 1) := by
    simp only [strchrIdx]
    rw [if_neg (by decide), h2]
    rfl
  have hie : strchrIdx (name ++ '.' :: (line ++ '=' :: value)) '=' =
      some (line.length + 1 + name.length) := by
    rw [strchrIdx_append_not_mem hn2, h3]
    rfl
  have h4 : strchrIdx ('.' :: (line ++ '=' :: value)) '.' = some 0 := by
    simp [strchrIdx]
  have hid : strchrIdx (name ++ '.' :: (line ++ '=' :: value)) '.' =
      some name.length := by
    rw [strchrIdx_append_not_mem hn1, h4]
    simp
  have hmin : min (line.length + 1 + name.length) name.length = name.length := by
    omega
  have hnameL : (name ++ '.' :: (line ++ '=' :: value)).take
      (min (line.length + 1 + name.length) name.length) = name := by
    rw [hmin]
    exact List.take_left name _
  have e1 : name ++ '.' :: (line ++ '=' :: value) =
      (name ++ '.' :: line) ++ '=' :: value := by
    simp
  have hlineL : seg (name ++ '.' :: (line ++ '=' :: value)) (name.length + 1)
      (line.length + 1 + name.length) = line := by
    rw [seg, e1, List.take_left' (by simp; omega)]
    have e2 : name ++ '.' :: line = (name ++ ['.']) ++ line := by simp
    rw [e2, List.drop_left' (by simp)]
  have hvalueL : (name ++ '.' :: (line ++ '=' :: value)).drop
      (line.length + 1 + name.length + 1) = value := by
    have e3 : name ++ '.' :: (line ++ '=' :: value) =
        ((name ++ '.' :: line) ++ ['=']) ++ value := by simp
    rw [e3, List.drop_left' (by simp; omega)]
  have hmain : do_deposit (['d', ':'] ++ name ++ ['.'] ++ line ++ ['='] ++ value)
      find_datum_by_name assign_expr =
      [DepositEv.beginSub, DepositEv.tryAssign ("SELECT ".data ++ value)] ++
        (if assign_expr ("SELECT ".data ++ value) then
          [DepositEv.releaseSub, DepositEv.send 't']
         else
          [DepositEv.rollbackSub, DepositEv.beginSub,
           DepositEv.tryAssign ("SELECT ".data ++ [sq] ++ value ++ [sq])] ++
            (if assign_expr ("SELECT ".data ++ [sq] ++ value ++ [sq]) then
              [DepositEv.releaseSub, DepositEv.send 't']
             else [DepositEv.rollbackSub, DepositEv.send 'f'])) := by
    simp only [do_deposit, hvar, hie, hid]
    rw [if_pos (show name.length < line.length + 1 + name.length by omega)]
    rw [if_neg (show ¬(line.length + 1 + name.length < name.length) by omega)]
    rw [hnameL, hlineL, hvalueL, hfind]
    simp
  refine ⟨?_, ?_, ?_⟩
  · intro ha
    rw [hmain, ha]
    simp
  · intro ha hb
    rw [hmain, ha, hb]
    simp
  · intro ha hb
    rw [hmain, ha, hb]
    simp

/-- Witness for C9: depositing 1+1 into variable x at line 5 succeeds on
the expression branch; depositing abc (not a valid expression for the
oracle) rolls back and succeeds on the single-quoted literal retry. -/
theorem C9_witness :
    do_deposit (['d', ':'] ++ "x".data ++ ['.'] ++ "5".data ++ ['='] ++ "1+1".data)
        (fun n l => decide (n = "x".data ∧ l = 5))
        (fun q => decide (q = "SELECT 1+1".data)) =
      [DepositEv.beginSub, DepositEv.tryAssign ("SELECT ".data ++ "1+1".data),
       DepositEv.releaseSub, DepositEv.send 't'] ∧
    do_deposit (['d', ':'] ++ "x".data ++ ['.'] ++ "5".data ++ ['='] ++ "abc".data)
        (fun n l => decide (n = "x".data ∧ l = 5))
        (fun q => decide (q = "SELECT ".data ++ [sq] ++ "abc".data ++ [sq])) =
      [DepositEv.beginSub, DepositEv.tryAssign ("SELECT ".data ++ "abc".data),
       DepositEv.rollbackSub, DepositEv.beginSub,
       DepositEv.tryAssign ("SELECT ".data ++ [sq] ++ "abc".data ++ [sq]),
       DepositEv.releaseSub, DepositEv.send 't'] :=
  ⟨(C9_deposit_two_phase "x".data "5".data "1+1".data
      (fun n l => decide (n = "x".data ∧ l = 5))
      (fun q => decide (q = "SELECT 1+1".data))
      (by decide) (by decide) (by decide) (by decide) (by decide)).1 (by decide),
   (C9_deposit_two_phase "x".data "5".data "abc".data
      (fun n l => decide (n = "x".data ∧ l = 5))
      (fun q => decide (q = "SELECT ".data ++ [sq] ++ "abc".data ++ [sq]))
      (by decide) (by decide) (by decide) (by decide) (by decide)).2.1
      (by decide) (by decide)⟩

end PLDebugger
